import Mathlib

/-!
# Book catalogue: domain validators and use-case service

A shallow embedding of `modules/book/domain/book.go` and
`modules/book/application/service.go`.

Modelling conventions.

* A Go `string` is a Lean `String`, that is a sequence of Unicode code points
  (Go strings holding bytes that are not valid UTF-8 are outside the model).
* A Go `error` is its message (`Error := String`); the `nil` error is `none`.
* A Go `uint` is a natural number below `2 ^ 64`; `int(x)` is `uintToInt`.
* `time.Now()` is an explicit argument of every function that reads the clock.
* Go's `unicode.ToUpper` consults the Unicode case tables for runes from
  `U+0080` upwards. Those tables belong to the Go standard library; they are
  the parameter `u : Char → Char` wherever upper-casing happens. ASCII runes
  never consult the table.
-/

namespace Library

/-! ## Strings (Go standard library, `strings` and `unicode`) -/

/-- Go `unicode.IsSpace`: the Latin-1 spaces `\t \n \v \f \r`, space, NEL and
NBSP, and the code points of the Unicode `White_Space` property above
Latin-1. -/
def isSpace (c : Char) : Bool :=
  let n := c.toNat
  n == 0x09 || n == 0x0A || n == 0x0B || n == 0x0C || n == 0x0D || n == 0x20 ||
  n == 0x85 || n == 0xA0 || n == 0x1680 || (0x2000 ≤ n && n ≤ 0x200A) ||
  n == 0x2028 || n == 0x2029 || n == 0x202F || n == 0x205F || n == 0x3000

/-- Go `strings.TrimSpace`: drops the leading and the trailing white space. -/
def TrimSpace (s : String) : String :=
  ⟨(s.data.dropWhile isSpace).rdropWhile isSpace⟩

/-- Go `strings.ReplaceAll(s, old, "")` for a one-character `old`: every
occurrence of `old` is deleted. -/
def ReplaceAll (s : String) (old : Char) : String :=
  ⟨s.data.filter (fun c => c != old)⟩

/-- Go `unicode.ToUpper` on one rune: ASCII letters are shifted by 32, other
ASCII runes are kept, and the runes from `U+0080` on go through the case
table `u`. -/
def toUpperRune (u : Char → Char) (c : Char) : Char :=
  if c.toNat < 0x80 then
    (if 0x61 ≤ c.toNat ∧ c.toNat ≤ 0x7A then Char.ofNat (c.toNat - 32) else c)
  else u c

/-- Go `strings.ToUpper`: `unicode.ToUpper` applied to every rune. -/
def ToUpper (u : Char → Char) (s : String) : String :=
  ⟨s.data.map (toUpperRune u)⟩

/-! ## `domain/book.go` -/

/-- A Go `error` value, identified with its message. -/
abbrev Error := String

/-- Source `NormalizeISBN`: trims, deletes hyphens, deletes spaces, upper-cases. -/
def NormalizeISBN (u : Char → Char) (isbn : String) : String :=
  ToUpper u (ReplaceAll (ReplaceAll (TrimSpace isbn) '-') ' ')

/-- The regular-expression class `\d`: an ASCII decimal digit. -/
def isDigit (c : Char) : Bool := 0x30 ≤ c.toNat && c.toNat ≤ 0x39

/-- Source `re10`, the match of `^\d{9}(\d|X)$`. -/
def re10 (n : String) : Bool :=
  n.data.length == 10 && (n.data.take 9).all isDigit &&
    (n.data.drop 9).all (fun c => isDigit c || c == 'X')

/-- Source `re13`, the match of `^\d{13}$`. -/
def re13 (n : String) : Bool :=
  n.data.length == 13 && n.data.all isDigit

/-- Source expression `int(n[i]-'0')`; the result of the byte subtraction is
only used on characters the regular expression has admitted. -/
def digitAt (n : String) (i : Nat) : Nat :=
  ((n.data.getD i '0').toNat + 256 - 0x30) % 256

/-- Source ISBN-10 loop: `sum += (10 - i) * int(n[i]-'0')` for `i` in `0..8`. -/
def sum10 (n : String) : Nat :=
  ((List.range 9).map (fun i => (10 - i) * digitAt n i)).sum

/-- Source ISBN-10 `check`: 10 for a final `X`, the digit otherwise. -/
def check10 (n : String) : Nat :=
  if n.data.getD 9 '0' == 'X' then 10 else digitAt n 9

/-- Source ISBN-13 loop: weight 1 at even positions, 3 at odd ones, over
positions `0..11`. -/
def sum13 (n : String) : Nat :=
  ((List.range 12).map (fun i => if i % 2 == 0 then digitAt n i else 3 * digitAt n i)).sum

/-- Source `ValidateISBN`, the `switch` on the normalized string `n`: `none`
is the `nil` error. -/
def checkNormalized (n : String) : Option Error :=
  if re10 n then
    (if (sum10 n + check10 n) % 11 != 0 then some "invalid ISBN-10 checksum" else none)
  else if re13 n then
    (if digitAt n 12 != (10 - (sum13 n % 10)) % 10 then some "invalid ISBN-13 checksum"
     else none)
  else some "isbn must be ISBN-10 or ISBN-13 format"

/-- Source `ValidateISBN`: normalizes, then checks shape and check digit. -/
def ValidateISBN (u : Char → Char) (isbn : String) : Option Error :=
  checkNormalized (NormalizeISBN u isbn)

/-- A `time.Time` in UTC, reduced to what the code observes of it: the instant
and the calendar year returned by `Year()`. -/
structure Time where
  unixNano : Int
  year : Int
deriving DecidableEq

/-- Go conversion `int(x)` of a 64-bit `uint`: values from `2 ^ 63` on wrap
to negative numbers. -/
def uintToInt (x : Nat) : Int :=
  if x % 2 ^ 64 < 2 ^ 63 then ((x % 2 ^ 64 : Nat) : Int) else ((x % 2 ^ 64 : Nat) : Int) - 2 ^ 64

/-- Source `ValidateYear`; `now` is the reading of `time.Now().UTC()`. -/
def ValidateYear (now : Time) (year : Nat) : Option Error :=
  if uintToInt year < 1450 ∨ uintToInt year > now.year then
    some "year must be between 1450 and current year"
  else none

/-- Source `Book`. -/
structure Book where
  ID : Nat
  Title : String
  Author : String
  Year : Nat
  Genre : String
  ISBN : String
  CreatedAt : Time
  UpdatedAt : Time
deriving DecidableEq

/-- Source `BookFilter`; a `nil` pointer is `none`. -/
structure BookFilter where
  Title : Option String
  Author : Option String
  Year : Option Nat
  Genre : Option String
deriving DecidableEq

/-- Source `UpdateBookInput`; a `nil` pointer is `none`. -/
structure UpdateBookInput where
  Title : Option String
  Author : Option String
  Year : Option Nat
  Genre : Option String
  ISBN : Option String
deriving DecidableEq

/-- Source `NewBook`; `now` is the reading of `time.Now().UTC()`. The
identifier keeps Go's zero value. -/
def NewBook (u : Char → Char) (now : Time) (title author : String) (year : Nat)
    (genre isbn : String) : Book :=
  { ID := 0
    Title := TrimSpace title
    Author := TrimSpace author
    Year := year
    Genre := TrimSpace genre
    ISBN := NormalizeISBN u isbn
    CreatedAt := now
    UpdatedAt := now }

/-- Source `(*Book).Update`; `now` is the reading of `time.Now().UTC()`. -/
def Book.Update (u : Char → Char) (now : Time) (b : Book) (input : UpdateBookInput) : Book :=
  let b := match input.Title with
    | some t => { b with Title := TrimSpace t }
    | none => b
  let b := match input.Author with
    | some a => { b with Author := TrimSpace a }
    | none => b
  let b := match input.Year with
    | some y => { b with Year := y }
    | none => b
  let b := match input.Genre with
    | some g => { b with Genre := TrimSpace g }
    | none => b
  let b := match input.ISBN with
    | some i => { b with ISBN := NormalizeISBN u i }
    | none => b
  { b with UpdatedAt := now }

/-- Source `BookFilter.HasAny`. -/
def BookFilter.HasAny (f : BookFilter) : Bool :=
  f.Title.isSome || f.Author.isSome || f.Year.isSome || f.Genre.isSome

/-- Source `(*Book).ValidateBasic`; `now` is the clock reading made by
`ValidateYear`. -/
def Book.ValidateBasic (u : Char → Char) (now : Time) (b : Book) : Option Error :=
  if TrimSpace b.Title = "" then some "title is required"
  else if TrimSpace b.Author = "" then some "author is required"
  else match ValidateYear now b.Year with
    | some err => some err
    | none =>
      match ValidateISBN u b.ISBN with
      | some err => some err
      | none => none

/-- Source `ValidateUpdateInput`; `now` is the clock reading made by
`ValidateYear` when the patch carries a year. -/
def ValidateUpdateInput (u : Char → Char) (now : Time) (input : UpdateBookInput) :
    Option Error :=
  if input.Title.any (fun t => TrimSpace t = "") then some "title cannot be empty"
  else if input.Author.any (fun a => TrimSpace a = "") then some "author cannot be empty"
  else match input.Year.bind (ValidateYear now) with
    | some err => some err
    | none =>
      match input.ISBN.bind (ValidateISBN u) with
      | some err => some err
      | none => none

/-! ## `domain/repository.go` and `application/service.go` -/

/-- Go result pair `(*Book, error)`; a `nil` pointer and a `nil` error are
`none`. -/
abbrev BookResult := Option Book × Option Error

/-- Go result pair `([]*Book, error)`. -/
abbrev BooksResult := List (Option Book) × Option Error

/-- Source interface `BookRepository`, as transitions of a repository state
`σ`. The implementations are arbitrary. `Create` receives a pointer and may
write to the book (the SQL repository assigns the identifier), so it also
yields the book as the call leaves it. -/
structure BookRepository (σ : Type) where
  Create : Book → σ → (Book × Option Error) × σ
  Update : Book → σ → BookResult × σ
  Delete : Nat → σ → Option Error × σ
  GetAll : σ → BooksResult × σ
  GetByID : Nat → σ → BookResult × σ
  FindByFilter : BookFilter → σ → BooksResult × σ
  GetByISBN : String → σ → BookResult × σ

/-- One call made on the repository, with its argument. -/
inductive Call where
  | Create (book : Book)
  | Update (book : Book)
  | Delete (id : Nat)
  | GetAll
  | GetByID (id : Nat)
  | FindByFilter (filter : BookFilter)
  | GetByISBN (isbn : String)
deriving DecidableEq

/-- How a use-case ends: it returns a value, or it dereferences a `nil`
pointer and panics. -/
inductive Outcome (α : Type) where
  | returned (value : α)
  | panicked
deriving DecidableEq

/-- A finished use-case: its outcome, the repository calls it made in order,
and the repository state it leaves. -/
structure Run (σ α : Type) where
  out : Outcome α
  calls : List Call
  state : σ

/-- Source `(*BookService).CreateBook`. `tNew` is the clock reading of
`NewBook`, `tVal` the one of `ValidateBasic`. -/
def CreateBook {σ : Type} (u : Char → Char) (repo : BookRepository σ) (tNew tVal : Time)
    (title author : String) (year : Nat) (genre isbn : String) (s : σ) :
    Run σ BookResult :=
  if title = "" then ⟨.returned (none, some "title is required"), [], s⟩
  else if author = "" then ⟨.returned (none, some "author is required"), [], s⟩
  else
    let book := NewBook u tNew title author year genre isbn
    match book.ValidateBasic u tVal with
    | some err => ⟨.returned (none, some err), [], s⟩
    | none =>
      let r := repo.GetByISBN book.ISBN s
      if r.1.2 = none ∧ r.1.1 ≠ none then
        ⟨.returned (none, some ("isbn " ++ book.ISBN ++ " already exists")),
          [.GetByISBN book.ISBN], r.2⟩
      else
        let c := repo.Create book r.2
        match c.1.2 with
        | some err => ⟨.returned (none, some err), [.GetByISBN book.ISBN, .Create book], c.2⟩
        | none => ⟨.returned (some c.1.1, none), [.GetByISBN book.ISBN, .Create book], c.2⟩

/-- Source `(*BookService).UpdateBook`, from `current.Update(input)` on:
`current` is the pointer `GetByID` returned (`none` when it is `nil`, in which
case the method call dereferences it and panics), `calls` and `s` the calls
made and the repository state so far. -/
def applyAndPersist {σ : Type} (u : Char → Char) (repo : BookRepository σ) (tUpd tVal : Time)
    (current : Option Book) (input : UpdateBookInput) (calls : List Call) (s : σ) :
    Run σ BookResult :=
  match current with
  | none => ⟨.panicked, calls, s⟩
  | some cur =>
    let merged := cur.Update u tUpd input
    match merged.ValidateBasic u tVal with
    | some err => ⟨.returned (none, some err), calls, s⟩
    | none =>
      let r := repo.Update merged s
      match r.1.2 with
      | some err => ⟨.returned (none, some err), calls ++ [.Update merged], r.2⟩
      | none => ⟨.returned (r.1.1, none), calls ++ [.Update merged], r.2⟩

/-- Source `(*BookService).UpdateBook`. `tIn` is the clock reading of
`ValidateUpdateInput`, `tUpd` the one of `Update`, `tVal` the one of
`ValidateBasic`. -/
def UpdateBook {σ : Type} (u : Char → Char) (repo : BookRepository σ) (tIn tUpd tVal : Time)
    (id : Nat) (input : UpdateBookInput) (s : σ) : Run σ BookResult :=
  if id = 0 then ⟨.returned (none, some "id is required"), [], s⟩
  else
    let g := repo.GetByID id s
    match g.1.2 with
    | some err =>
      ⟨.returned (none, some ("book " ++ toString id ++ " not found: " ++ err)),
        [.GetByID id], g.2⟩
    | none =>
      match ValidateUpdateInput u tIn input with
      | some err => ⟨.returned (none, some err), [.GetByID id], g.2⟩
      | none =>
        match input.ISBN with
        | some isbn =>
          let o := repo.GetByISBN isbn g.2
          match o.1.2, o.1.1 with
          | none, some other =>
            match g.1.1 with
            | none => ⟨.panicked, [.GetByID id, .GetByISBN isbn], o.2⟩
            | some cur =>
              if other.ID ≠ cur.ID then
                ⟨.returned (none, some "isbn already registered by another book"),
                  [.GetByID id, .GetByISBN isbn], o.2⟩
              else
                applyAndPersist u repo tUpd tVal g.1.1 input [.GetByID id, .GetByISBN isbn] o.2
          | _, _ =>
            applyAndPersist u repo tUpd tVal g.1.1 input [.GetByID id, .GetByISBN isbn] o.2
        | none => applyAndPersist u repo tUpd tVal g.1.1 input [.GetByID id] g.2

/-- Source `(*BookService).DeleteBook`. -/
def DeleteBook {σ : Type} (repo : BookRepository σ) (id : Nat) (s : σ) :
    Run σ (Option Error) :=
  if id = 0 then ⟨.returned (some "id is required"), [], s⟩
  else
    let g := repo.GetByID id s
    match g.1.2 with
    | some err =>
      ⟨.returned (some ("book " ++ toString id ++ " not found: " ++ err)), [.GetByID id], g.2⟩
    | none =>
      let d := repo.Delete id g.2
      ⟨.returned d.1, [.GetByID id, .Delete id], d.2⟩

/-- Source `(*BookService).GetBookByID`. -/
def GetBookByID {σ : Type} (repo : BookRepository σ) (id : Nat) (s : σ) : Run σ BookResult :=
  if id = 0 then ⟨.returned (none, some "id is required"), [], s⟩
  else
    let g := repo.GetByID id s
    ⟨.returned g.1, [.GetByID id], g.2⟩

/-- Source `(*BookService).GetBookByISBN`. -/
def GetBookByISBN {σ : Type} (u : Char → Char) (repo : BookRepository σ) (isbn : String)
    (s : σ) : Run σ BookResult :=
  if isbn = "" then ⟨.returned (none, some "isbn is required"), [], s⟩
  else
    let g := repo.GetByISBN (NormalizeISBN u isbn) s
    ⟨.returned g.1, [.GetByISBN (NormalizeISBN u isbn)], g.2⟩

/-- Source `(*BookService).SearchBooks`. -/
def SearchBooks {σ : Type} (repo : BookRepository σ) (filter : BookFilter) (s : σ) :
    Run σ BooksResult :=
  if !filter.HasAny then
    let r := repo.GetAll s
    ⟨.returned r.1, [.GetAll], r.2⟩
  else
    let r := repo.FindByFilter filter s
    ⟨.returned r.1, [.FindByFilter filter], r.2⟩

/-! ## The specification's wording of the ISBN rules -/

/-- The character of `n` at position `i` (a space beyond the end). -/
def charAt (n : String) (i : Nat) : Char := n.data.getD i ' '

/-- The value of a decimal digit character. -/
def digitValue (c : Char) : Nat := c.toNat - 48

/-- Specification shape ISBN-13: 13 decimal digits. -/
def IsThirteenDigits (n : String) : Prop :=
  n.length = 13 ∧ ∀ i, i < 13 → isDigit (charAt n i) = true

/-- Specification shape ISBN-10: 9 decimal digits followed by one decimal
digit or the letter `X`. -/
def IsNineDigitsThenDigitOrX (n : String) : Prop :=
  n.length = 10 ∧ (∀ i, i < 9 → isDigit (charAt n i) = true) ∧
    (isDigit (charAt n 9) = true ∨ charAt n 9 = 'X')

/-- Specification ISBN-13 sum: positions `0..11`, weight 1 at an even index
and 3 at an odd one. -/
def specSum13 (n : String) : Nat :=
  ∑ i in Finset.range 12, (if i % 2 = 0 then 1 else 3) * digitValue (charAt n i)

/-- Specification ISBN-10 sum: weight `10 - i` at positions `0..8`, plus the
value of the last character, where `X` counts as 10. -/
def specSum10 (n : String) : Nat :=
  (∑ i in Finset.range 9, (10 - i) * digitValue (charAt n i)) +
    (if charAt n 9 = 'X' then 10 else digitValue (charAt n 9))

instance (n : String) : Decidable (IsThirteenDigits n) := by
  unfold IsThirteenDigits; infer_instance

instance (n : String) : Decidable (IsNineDigitsThenDigitOrX n) := by
  unfold IsNineDigitsThenDigitOrX; infer_instance

/-- The calls that write to the store: `Create`, `Update` and `Delete`. -/
def Call.isMutation : Call → Bool
  | .Create _ => true
  | .Update _ => true
  | .Delete _ => true
  | _ => false

/-- The specification's wording of a valid record: non-blank title and
author, year in `[1450, current year]`, ISBN accepted by `ValidateISBN`. -/
def Book.IsValid (u : Char → Char) (now : Time) (b : Book) : Prop :=
  TrimSpace b.Title ≠ "" ∧ TrimSpace b.Author ≠ "" ∧
    (1450 ≤ uintToInt b.Year ∧ uintToInt b.Year ≤ now.year) ∧ ValidateISBN u b.ISBN = none

/-- A repository with fixed answers, in the manner of the mock of the test
suite: `GetByID` answers `byID`, `GetByISBN` answers `byISBN`, `Update` answers
`upd`, `Create` assigns identifier 1, and nothing fails otherwise. -/
def fixedRepo (byID byISBN upd : BookResult) : BookRepository Unit where
  Create := fun b s => (({ b with ID := 1 }, none), s)
  Update := fun _ s => (upd, s)
  Delete := fun _ s => (none, s)
  GetAll := fun s => (([], none), s)
  GetByID := fun _ s => (byID, s)
  FindByFilter := fun _ s => (([], none), s)
  GetByISBN := fun _ s => (byISBN, s)

/-- A clock reading in the year 2025. -/
def t2025 : Time := { unixNano := 1750000000000000000, year := 2025 }

/-- A stored record with the given identifier and ISBN. -/
def sampleBook (id : Nat) (isbn : String) : Book :=
  { ID := id, Title := "Libro de prueba", Author := "Autor de prueba", Year := 2022,
    Genre := "Fiction", ISBN := isbn, CreatedAt := t2025, UpdatedAt := t2025 }

/-- A patch that carries only an ISBN. -/
def isbnPatch (isbn : String) : UpdateBookInput :=
  { Title := none, Author := none, Year := none, Genre := none, ISBN := some isbn }

/-- The specification's error kind `MissingField`: the messages the code
gives for a required input that is absent, empty or zero. -/
def IsMissingField (e : Error) : Prop :=
  e = "title is required" ∨ e = "author is required" ∨ e = "id is required" ∨
    e = "isbn is required" ∨ e = "title cannot be empty" ∨ e = "author cannot be empty"

/-- The specification's error kind `InvalidYear`. -/
def IsInvalidYear (e : Error) : Prop :=
  e = "year must be between 1450 and current year"

/-- The specification's error kind `InvalidISBN`: a shape failure or a
checksum failure. -/
def IsInvalidISBN (e : Error) : Prop :=
  e = "isbn must be ISBN-10 or ISBN-13 format" ∨ e = "invalid ISBN-10 checksum" ∨
    e = "invalid ISBN-13 checksum"

/-- The patch without any field. -/
def emptyPatch : UpdateBookInput :=
  { Title := none, Author := none, Year := none, Genre := none, ISBN := none }

/-- One line of a repository journal: the call and the error it returned. -/
abbrev JournalEntry := Call × Option Error

/-- The repository `repo` with a journal beside its state: every call is
answered by `repo` and recorded together with the error it returned. -/
def journaled {σ : Type} (repo : BookRepository σ) :
    BookRepository (σ × List JournalEntry) where
  Create := fun b s =>
    ((repo.Create b s.1).1, ((repo.Create b s.1).2, s.2 ++ [(Call.Create b, (repo.Create b s.1).1.2)]))
  Update := fun b s =>
    ((repo.Update b s.1).1, ((repo.Update b s.1).2, s.2 ++ [(Call.Update b, (repo.Update b s.1).1.2)]))
  Delete := fun k s =>
    ((repo.Delete k s.1).1, ((repo.Delete k s.1).2, s.2 ++ [(Call.Delete k, (repo.Delete k s.1).1)]))
  GetAll := fun s =>
    ((repo.GetAll s.1).1, ((repo.GetAll s.1).2, s.2 ++ [(Call.GetAll, (repo.GetAll s.1).1.2)]))
  GetByID := fun k s =>
    ((repo.GetByID k s.1).1,
      ((repo.GetByID k s.1).2, s.2 ++ [(Call.GetByID k, (repo.GetByID k s.1).1.2)]))
  FindByFilter := fun f s =>
    ((repo.FindByFilter f s.1).1,
      ((repo.FindByFilter f s.1).2,
        s.2 ++ [(Call.FindByFilter f, (repo.FindByFilter f s.1).1.2)]))
  GetByISBN := fun i s =>
    ((repo.GetByISBN i s.1).1,
      ((repo.GetByISBN i s.1).2, s.2 ++ [(Call.GetByISBN i, (repo.GetByISBN i s.1).1.2)]))

/-- The `GetByISBN` calls. -/
def Call.isGetByISBN : Call → Bool
  | .GetByISBN _ => true
  | _ => false

/-- In a journal, every failed call that is not `excused` is the last call. -/
def failuresStop (excused : Call → Bool) : List JournalEntry → Bool
  | [] => true
  | [_] => true
  | e :: e2 :: rest => (e.2.isNone || excused e.1) && failuresStop excused (e2 :: rest)

/-- A journal holds a failed call that is not `excused`. -/
def hasFailure (excused : Call → Bool) (j : List JournalEntry) : Bool :=
  j.any (fun e => e.2.isSome && !excused e.1)

/-- The use-case returned, and what it returned carries an error. -/
def returnsError {α : Type} (err : α → Option Error) : Outcome α → Prop
  | .returned v => err v ≠ none
  | .panicked => False

/-- A use-case surfaces the failures of its repository calls. `journal` is
the run of the use-case on the journaled repository and `plain` its run on
the repository itself: both return the same and make the same calls; in the
journal every failed call that is not `excused` is the last call, and when
there is one the use-case returns an error (`err` reads the error of what is
returned). -/
def SurfacesFailures {σ α : Type} (excused : Call → Bool) (err : α → Option Error)
    (plain : Run σ α) (journal : Run (σ × List JournalEntry) α) : Prop :=
  journal.out = plain.out ∧
  journal.state.2.map Prod.fst = plain.calls ∧
  failuresStop excused journal.state.2 = true ∧
  (hasFailure excused journal.state.2 = true → returnsError err plain.out)

/-- A patch that carries every field, in the manner of the update test. -/
def fullPatch : UpdateBookInput :=
  { Title := some "  Nuevo titulo ", Author := some "Nuevo autor", Year := some 1999,
    Genre := some "", ISBN := some "0-8044-2957-x" }

/-! ## Theorems -/

theorem charAt_eq_getElem (n : String) (i : Nat) (h : i < n.data.length) :
    charAt n i = n.data[i] := by
  unfold charAt
  exact List.getD_eq_getElem _ _ h

theorem digitAt_eq_digitValue (n : String) (i : Nat) (h : i < n.data.length)
    (hd : isDigit (charAt n i) = true) : digitAt n i = digitValue (charAt n i) := by
  unfold digitAt digitValue
  have e : n.data.getD i '0' = charAt n i := by
    rw [charAt_eq_getElem n i h]; exact List.getD_eq_getElem _ _ h
  rw [e]
  simp only [isDigit, Bool.and_eq_true, decide_eq_true_eq] at hd
  omega

theorem re13_iff (n : String) : re13 n = true ↔ IsThirteenDigits n := by
  unfold re13 IsThirteenDigits
  simp only [Bool.and_eq_true, beq_iff_eq, List.all_eq_true, String.length]
  constructor
  · rintro ⟨hl, hall⟩
    refine ⟨hl, fun i hi => ?_⟩
    rw [charAt_eq_getElem n i (by omega)]
    exact hall _ (List.getElem_mem _)
  · rintro ⟨hl, hall⟩
    refine ⟨hl, fun c hc => ?_⟩
    obtain ⟨i, hi, rfl⟩ := List.getElem_of_mem hc
    rw [← charAt_eq_getElem n i hi]
    exact hall i (by omega)

theorem re10_iff (n : String) : re10 n = true ↔ IsNineDigitsThenDigitOrX n := by
  unfold re10 IsNineDigitsThenDigitOrX
  simp only [Bool.and_eq_true, beq_iff_eq, List.all_eq_true, String.length, Bool.or_eq_true]
  constructor
  · rintro ⟨⟨hl, htake⟩, hdrop⟩
    refine ⟨hl, fun i hi => ?_, ?_⟩
    · rw [charAt_eq_getElem n i (by omega)]
      have hlt : i < (n.data.take 9).length := by simp only [List.length_take]; omega
      have := htake _ (List.getElem_mem hlt)
      rwa [List.getElem_take] at this
    · rw [charAt_eq_getElem n 9 (by omega)]
      have hlt : 0 < (n.data.drop 9).length := by simp only [List.length_drop]; omega
      have := hdrop _ (List.getElem_mem hlt)
      rw [List.getElem_drop] at this
      simpa using this
  · rintro ⟨hl, hfirst, hlast⟩
    refine ⟨⟨hl, fun c hc => ?_⟩, fun c hc => ?_⟩
    · obtain ⟨i, hi, rfl⟩ := List.getElem_of_mem hc
      rw [List.getElem_take]
      have hi9 : i < 9 := by simp only [List.length_take] at hi; omega
      rw [← charAt_eq_getElem n i (by omega)]
      exact hfirst i hi9
    · obtain ⟨i, hi, rfl⟩ := List.getElem_of_mem hc
      rw [List.getElem_drop]
      have hi0 : i = 0 := by simp only [List.length_drop] at hi; omega
      subst hi0
      rw [← charAt_eq_getElem n 9 (by omega)]
      simpa using hlast

theorem sum13_eq_specSum13 (n : String) (h : IsThirteenDigits n) : sum13 n = specSum13 n := by
  obtain ⟨hl, hd⟩ := h
  have hl2 : n.data.length = 13 := hl
  have e : ∀ i, i < 13 → digitAt n i = digitValue (charAt n i) := fun i hi =>
    digitAt_eq_digitValue n i (by omega) (hd i hi)
  have hr : List.range 12 = [0, 1, 2, 3, 4, 5, 6, 7, 8, 9, 10, 11] := by decide
  unfold sum13 specSum13
  rw [hr]
  simp only [List.map, List.sum_cons, List.sum_nil, Finset.sum_range_succ, Finset.sum_range_zero]
  rw [e 0 (by omega), e 1 (by omega), e 2 (by omega), e 3 (by omega), e 4 (by omega),
    e 5 (by omega), e 6 (by omega), e 7 (by omega), e 8 (by omega), e 9 (by omega),
    e 10 (by omega), e 11 (by omega)]
  simp
  ring

theorem sum10_eq_specSum10 (n : String) (h : IsNineDigitsThenDigitOrX n) :
    sum10 n + check10 n = specSum10 n := by
  obtain ⟨hl, hd, hlast⟩ := h
  have hl2 : n.data.length = 10 := hl
  have e : ∀ i, i < 9 → digitAt n i = digitValue (charAt n i) := fun i hi =>
    digitAt_eq_digitValue n i (by omega) (hd i hi)
  have hr : List.range 9 = [0, 1, 2, 3, 4, 5, 6, 7, 8] := by decide
  have hc : check10 n = if charAt n 9 = 'X' then 10 else digitValue (charAt n 9) := by
    unfold check10
    have e9 : n.data.getD 9 '0' = charAt n 9 := by
      rw [charAt_eq_getElem n 9 (by omega)]; exact List.getD_eq_getElem _ _ (by omega)
    rw [e9]
    by_cases hx : charAt n 9 = 'X'
    · simp [hx]
    · have h9 : isDigit (charAt n 9) = true := by
        rcases hlast with h9 | h9
        · exact h9
        · exact absurd h9 hx
      simp [hx, digitAt_eq_digitValue n 9 (by omega) h9]
  unfold sum10 specSum10
  rw [hr, hc]
  simp only [List.map, List.sum_cons, List.sum_nil, Finset.sum_range_succ, Finset.sum_range_zero]
  rw [e 0 (by omega), e 1 (by omega), e 2 (by omega), e 3 (by omega), e 4 (by omega),
    e 5 (by omega), e 6 (by omega), e 7 (by omega), e 8 (by omega)]
  simp
  ring

theorem re10_false_of_thirteen (n : String) (h : IsThirteenDigits n) : re10 n = false := by
  cases hr : re10 n
  · rfl
  · have h10 := ((re10_iff n).1 hr).1
    have h13 := h.1
    omega

/-- C1. For every input whose normalized form is 13 decimal digits,
`ValidateISBN` succeeds exactly when the 13th digit equals
`(10 - (s mod 10)) mod 10`, `s` being the sum over positions 0..11 with weight
1 at even and 3 at odd positions. In particular `978-84-18037-01-6` normalizes
to `9788418037016` and is accepted. -/
theorem validateISBN_thirteen_digits (u : Char → Char) (isbn : String)
    (h : IsThirteenDigits (NormalizeISBN u isbn)) :
    (ValidateISBN u isbn = none ↔
      digitValue (charAt (NormalizeISBN u isbn) 12)
        = (10 - specSum13 (NormalizeISBN u isbn) % 10) % 10) ∧
    NormalizeISBN u "978-84-18037-01-6" = "9788418037016" ∧
    ValidateISBN u "978-84-18037-01-6" = none := by
  refine ⟨?_, rfl, ?_⟩
  · have h13 : re13 (NormalizeISBN u isbn) = true := (re13_iff _).2 h
    have h10 := re10_false_of_thirteen _ h
    have hl : (NormalizeISBN u isbn).data.length = 13 := h.1
    have e12 := digitAt_eq_digitValue (NormalizeISBN u isbn) 12 (by omega) (h.2 12 (by omega))
    unfold ValidateISBN checkNormalized
    rw [h10, h13, sum13_eq_specSum13 _ h, e12]
    by_cases hc : digitValue (charAt (NormalizeISBN u isbn) 12)
        = (10 - specSum13 (NormalizeISBN u isbn) % 10) % 10
    · simp [hc]
    · simp [hc]
  · have hn : NormalizeISBN u "978-84-18037-01-6" = "9788418037016" := rfl
    unfold ValidateISBN
    rw [hn]
    decide

theorem validateISBN_thirteen_digits_witness :
    IsThirteenDigits (NormalizeISBN id "978-84-18037-01-6") ∧
    ((ValidateISBN id "978-84-18037-01-6" = none ↔
      digitValue (charAt (NormalizeISBN id "978-84-18037-01-6") 12)
        = (10 - specSum13 (NormalizeISBN id "978-84-18037-01-6") % 10) % 10) ∧
    NormalizeISBN id "978-84-18037-01-6" = "9788418037016" ∧
    ValidateISBN id "978-84-18037-01-6" = none) :=
  ⟨by decide, validateISBN_thirteen_digits id "978-84-18037-01-6" (by decide)⟩

/-- C2. For every input whose normalized form is 9 decimal digits followed by
a decimal digit or `X`, `ValidateISBN` succeeds exactly when the sum of
`(10 - i)` times the digit at `i` for `i` in 0..8, plus the value of the last
character (`X` counts as 10), is divisible by 11. -/
theorem validateISBN_ten_characters (u : Char → Char) (isbn : String)
    (h : IsNineDigitsThenDigitOrX (NormalizeISBN u isbn)) :
    ValidateISBN u isbn = none ↔ 11 ∣ specSum10 (NormalizeISBN u isbn) := by
  have h10 : re10 (NormalizeISBN u isbn) = true := (re10_iff _).2 h
  unfold ValidateISBN checkNormalized
  rw [h10, sum10_eq_specSum10 _ h]
  by_cases hc : specSum10 (NormalizeISBN u isbn) % 11 = 0
  · simp [hc, Nat.dvd_of_mod_eq_zero hc]
  · have : ¬ 11 ∣ specSum10 (NormalizeISBN u isbn) := fun hd => hc (Nat.mod_eq_zero_of_dvd hd)
    simp [hc, this]

theorem validateISBN_ten_characters_witness :
    IsNineDigitsThenDigitOrX (NormalizeISBN id "0-8044-2957-x") ∧
    (ValidateISBN id "0-8044-2957-x" = none ↔
      11 ∣ specSum10 (NormalizeISBN id "0-8044-2957-x")) :=
  ⟨by decide, validateISBN_ten_characters id "0-8044-2957-x" (by decide)⟩

/-- C3. For every input whose normalized form has neither of the two shapes
(9 digits followed by a digit or `X`; 13 digits), `ValidateISBN` fails with
the invalid-ISBN error "isbn must be ISBN-10 or ISBN-13 format". -/
theorem validateISBN_other_shape (u : Char → Char) (isbn : String)
    (h10 : ¬ IsNineDigitsThenDigitOrX (NormalizeISBN u isbn))
    (h13 : ¬ IsThirteenDigits (NormalizeISBN u isbn)) :
    ValidateISBN u isbn = some "isbn must be ISBN-10 or ISBN-13 format" := by
  have e10 : re10 (NormalizeISBN u isbn) = false := by
    cases hr : re10 (NormalizeISBN u isbn)
    · rfl
    · exact absurd ((re10_iff _).1 hr) h10
  have e13 : re13 (NormalizeISBN u isbn) = false := by
    cases hr : re13 (NormalizeISBN u isbn)
    · rfl
    · exact absurd ((re13_iff _).1 hr) h13
  unfold ValidateISBN checkNormalized
  rw [e10, e13]
  rfl

theorem validateISBN_other_shape_witness :
    (¬ IsNineDigitsThenDigitOrX (NormalizeISBN id "12345X7890") ∧
      ¬ IsThirteenDigits (NormalizeISBN id "12345X7890")) ∧
    ValidateISBN id "12345X7890" = some "isbn must be ISBN-10 or ISBN-13 format" :=
  ⟨by decide, validateISBN_other_shape id "12345X7890" (by decide) (by decide)⟩

/-! ### Normalization -/

theorem toNat_ofNat_small (k : Nat) (h : k < 0xd800) : (Char.ofNat k).toNat = k := by
  have hv : k.isValidChar := Or.inl h
  simp only [Char.ofNat, hv, dite_true]
  rfl

theorem normalizeISBN_data (u : Char → Char) (x : String) :
    (NormalizeISBN u x).data
      = ((TrimSpace x).data.filter (fun c => c != '-' && c != ' ')).map (toUpperRune u) := by
  unfold NormalizeISBN ToUpper ReplaceAll
  simp only [List.filter_filter]
  congr 1
  apply List.filter_congr
  intro c _
  exact Bool.and_comm _ _

/-- The upper-case of a rune other than `-` and space is neither `-` nor a
space, when the case table never yields one. -/
theorem toUpperRune_ne_separator (u : Char → Char)
    (hsep : ∀ c, 0x80 ≤ c.toNat → u c ≠ '-' ∧ u c ≠ ' ') (c : Char)
    (hc : (c != '-' && c != ' ') = true) :
    (toUpperRune u c != '-' && toUpperRune u c != ' ') = true := by
  unfold toUpperRune
  by_cases h1 : c.toNat < 0x80
  · rw [if_pos h1]
    by_cases h2 : 0x61 ≤ c.toNat ∧ c.toNat ≤ 0x7A
    · rw [if_pos h2]
      have hv := toNat_ofNat_small (c.toNat - 32) (by omega)
      have n1 : Char.ofNat (c.toNat - 32) ≠ '-' := by
        intro he
        rw [he] at hv
        have : ('-' : Char).toNat = 45 := by decide
        omega
      have n2 : Char.ofNat (c.toNat - 32) ≠ ' ' := by
        intro he
        rw [he] at hv
        have : (' ' : Char).toNat = 32 := by decide
        omega
      simp [n1, n2]
    · rw [if_neg h2]
      exact hc
  · rw [if_neg h1]
    have := hsep c (by omega)
    simp [this.1, this.2]

/-- Upper-casing a rune twice is upper-casing it once, when the case table
yields runes that upper-casing leaves alone. -/
theorem toUpperRune_idem (u : Char → Char)
    (hfix : ∀ c, 0x80 ≤ c.toNat → toUpperRune u (u c) = u c) (c : Char) :
    toUpperRune u (toUpperRune u c) = toUpperRune u c := by
  by_cases h1 : c.toNat < 0x80
  · by_cases h2 : 0x61 ≤ c.toNat ∧ c.toNat ≤ 0x7A
    · have hv := toNat_ofNat_small (c.toNat - 32) (by omega)
      have e : toUpperRune u c = Char.ofNat (c.toNat - 32) := by
        unfold toUpperRune
        rw [if_pos h1, if_pos h2]
      rw [e]
      unfold toUpperRune
      rw [if_pos (by omega), if_neg (by omega)]
    · have e : toUpperRune u c = c := by
        unfold toUpperRune
        rw [if_pos h1, if_neg h2]
      rw [e, e]
  · have e : toUpperRune u c = u c := by
      unfold toUpperRune
      rw [if_neg h1]
    rw [e]
    exact hfix c (by omega)

/-- C4, the code at the failing input "-\t1" (hyphen, tab, 1): `NormalizeISBN`
trims white space and yet returns "\t1", which still begins with a tab, and a
second call returns "1". The two results differ whatever the case table, so
`NormalizeISBN` is not idempotent there. -/
theorem normalizeISBN_not_idempotent :
    (¬ ∃ u : Char → Char,
      NormalizeISBN u (NormalizeISBN u "-\t1") = NormalizeISBN u "-\t1") ∧
    (∀ u : Char → Char, NormalizeISBN u "-\t1" = "\t1") ∧
    (∀ u : Char → Char, NormalizeISBN u (NormalizeISBN u "-\t1") = "1") := by
  have h1 : ∀ u : Char → Char, NormalizeISBN u "-\t1" = "\t1" := fun u => rfl
  have h2 : ∀ u : Char → Char, NormalizeISBN u (NormalizeISBN u "-\t1") = "1" := fun u => rfl
  refine ⟨?_, h1, h2⟩
  rintro ⟨u, hu⟩
  rw [h2 u, h1 u] at hu
  exact absurd hu (by decide)

theorem trimSpace_sublist (s : String) : (TrimSpace s).data.Sublist s.data :=
  ((List.rdropWhile_prefix isSpace _).sublist).trans (List.dropWhile_sublist isSpace)

/-- Where the defect of `NormalizeISBN` shows: a second call changes the
result exactly for the `x` whose normalized form still begins or ends with
white space (Go's case table sends no rune to `-` or space, and upper-casing
fixes what it yields). -/
theorem normalizeISBN_idempotent_of_trimmed (u : Char → Char)
    (hsep : ∀ c, 0x80 ≤ c.toNat → u c ≠ '-' ∧ u c ≠ ' ')
    (hfix : ∀ c, 0x80 ≤ c.toNat → toUpperRune u (u c) = u c) (x : String) :
    NormalizeISBN u (NormalizeISBN u x) = NormalizeISBN u x ↔
      TrimSpace (NormalizeISBN u x) = NormalizeISBN u x := by
  constructor
  · intro h
    apply String.ext
    apply (trimSpace_sublist _).eq_of_length_le
    have hlen := congrArg (fun t : String => t.data.length) h
    simp only [normalizeISBN_data u (NormalizeISBN u x), List.length_map] at hlen
    rw [← hlen]
    exact List.length_filter_le _ _
  · intro hx
    apply String.ext
    rw [normalizeISBN_data u (NormalizeISBN u x), hx, normalizeISBN_data u x]
    have hkeep : List.filter (fun c => c != '-' && c != ' ')
        (List.map (toUpperRune u)
          (List.filter (fun c => c != '-' && c != ' ') (TrimSpace x).data))
        = List.map (toUpperRune u)
            (List.filter (fun c => c != '-' && c != ' ') (TrimSpace x).data) := by
      rw [List.filter_eq_self]
      intro a ha
      obtain ⟨c, hc, rfl⟩ := List.mem_map.1 ha
      exact toUpperRune_ne_separator u hsep c (List.mem_filter.1 hc).2
    rw [hkeep, List.map_map]
    apply List.map_congr_left
    intro c _
    exact toUpperRune_idem u hfix c

theorem normalizeISBN_idempotent_of_trimmed_witness :
    ((∀ c : Char, 0x80 ≤ c.toNat → id c ≠ '-' ∧ id c ≠ ' ') ∧
      (∀ c : Char, 0x80 ≤ c.toNat → toUpperRune id (id c) = id c)) ∧
    (NormalizeISBN id (NormalizeISBN id " 0-8044-2957-x\n")
        = NormalizeISBN id " 0-8044-2957-x\n" ↔
      TrimSpace (NormalizeISBN id " 0-8044-2957-x\n")
        = NormalizeISBN id " 0-8044-2957-x\n") :=
  have hsep : ∀ c : Char, 0x80 ≤ c.toNat → id c ≠ '-' ∧ id c ≠ ' ' := by
    intro c hc
    have a : ('-' : Char).toNat = 45 := by decide
    have b : (' ' : Char).toNat = 32 := by decide
    constructor
    · intro he
      have he2 : c = '-' := he
      rw [he2] at hc
      omega
    · intro he
      have he2 : c = ' ' := he
      rw [he2] at hc
      omega
  have hfix : ∀ c : Char, 0x80 ≤ c.toNat → toUpperRune id (id c) = id c := by
    intro c hc
    show toUpperRune id c = c
    unfold toUpperRune
    rw [if_neg (by omega)]
    rfl
  ⟨⟨hsep, hfix⟩, normalizeISBN_idempotent_of_trimmed id hsep hfix " 0-8044-2957-x\n"⟩

theorem trimSpace_idem (s : String) : TrimSpace (TrimSpace s) = TrimSpace s := by
  apply String.ext
  unfold TrimSpace
  simp only []
  have hd : List.dropWhile isSpace (List.rdropWhile isSpace (List.dropWhile isSpace s.data))
      = List.rdropWhile isSpace (List.dropWhile isSpace s.data) := by
    rw [List.dropWhile_eq_self_iff]
    intro hl
    have hpre := List.rdropWhile_prefix isSpace (List.dropWhile isSpace s.data)
    have hl2 : 0 < (List.dropWhile isSpace s.data).length := lt_of_lt_of_le hl hpre.length_le
    have hnot := List.dropWhile_get_zero_not isSpace s.data hl2
    have e : (List.rdropWhile isSpace (List.dropWhile isSpace s.data)).get ⟨0, hl⟩
        = (List.dropWhile isSpace s.data).get ⟨0, hl2⟩ := by
      simp only [List.get_eq_getElem]
      exact hpre.getElem hl
    rw [e]
    exact hnot
  rw [hd, List.rdropWhile_idempotent]

theorem validateYear_none_iff (now : Time) (y : Nat) :
    ValidateYear now y = none ↔ 1450 ≤ uintToInt y ∧ uintToInt y ≤ now.year := by
  unfold ValidateYear
  split
  · rename_i h
    simp only [false_iff, reduceCtorEq]
    omega
  · rename_i h
    simp only [true_iff]
    omega

theorem validateBasic_none_iff (u : Char → Char) (now : Time) (b : Book) :
    b.ValidateBasic u now = none ↔ b.IsValid u now := by
  unfold Book.ValidateBasic Book.IsValid
  rw [← validateYear_none_iff]
  by_cases h1 : TrimSpace b.Title = ""
  · simp [h1]
  · by_cases h2 : TrimSpace b.Author = ""
    · simp [h1, h2]
    · cases h3 : ValidateYear now b.Year with
      | some e => simp [h1, h2]
      | none =>
        cases h4 : ValidateISBN u b.ISBN with
        | some e => simp [h1, h2]
        | none => simp [h1, h2]

/-! ### `CreateBook` -/

theorem trimSpace_empty : TrimSpace "" = "" := by decide

theorem newBook_validateBasic_title_blank (u : Char → Char) (tNew tVal : Time)
    (title author : String) (year : Nat) (genre isbn : String) (h : TrimSpace title = "") :
    (NewBook u tNew title author year genre isbn).ValidateBasic u tVal
      = some "title is required" := by
  unfold Book.ValidateBasic NewBook
  simp only [h, trimSpace_empty, if_true]

theorem newBook_validateBasic_author_blank (u : Char → Char) (tNew tVal : Time)
    (title author : String) (year : Nat) (genre isbn : String) (ht : TrimSpace title ≠ "")
    (h : TrimSpace author = "") :
    (NewBook u tNew title author year genre isbn).ValidateBasic u tVal
      = some "author is required" := by
  unfold Book.ValidateBasic NewBook
  simp only [h, trimSpace_idem, trimSpace_empty, if_true, if_neg ht]

/-- C10, the claim as stated fails: with a whitespace-only title and an empty
author the message is "author is required", not "title is required". -/
theorem createBook_blank_title_empty_author :
    (∀ (u : Char → Char) (tNew tVal : Time),
      (CreateBook u (fixedRepo (none, none) (none, none) (none, none)) tNew tVal
        " " "" 2022 "Fiction" "9788418037016" ()).out
        = .returned (none, some "author is required")) ∧
    TrimSpace " " = "" ∧
    ¬ ∃ (u : Char → Char) (tNew tVal : Time),
      (CreateBook u (fixedRepo (none, none) (none, none) (none, none)) tNew tVal
        " " "" 2022 "Fiction" "9788418037016" ()).out
        = .returned (none, some "title is required") := by
  have h : ∀ (u : Char → Char) (tNew tVal : Time),
      (CreateBook u (fixedRepo (none, none) (none, none) (none, none)) tNew tVal
        " " "" 2022 "Fiction" "9788418037016" ()).out
        = .returned (none, some "author is required") := fun u tNew tVal => rfl
  refine ⟨h, by decide, ?_⟩
  rintro ⟨u, tNew, tVal, hu⟩
  rw [h u tNew tVal] at hu
  exact absurd hu (by decide)

/-- C10, amended. A `CreateBook` call whose title is empty or whitespace-only
fails with "title is required", unless the title is not the empty string and
the author is, where it fails with "author is required"; a call with a
non-blank title and an empty or whitespace-only author fails with "author is
required". In every one of these cases no book is returned and no repository
call is made. -/
theorem createBook_missing_field {σ : Type} (u : Char → Char) (repo : BookRepository σ)
    (tNew tVal : Time) (title author : String) (year : Nat) (genre isbn : String) (s : σ) :
    (TrimSpace title = "" → (title = "" ∨ author ≠ "") →
      (CreateBook u repo tNew tVal title author year genre isbn s).out
          = .returned (none, some "title is required") ∧
        (CreateBook u repo tNew tVal title author year genre isbn s).calls = []) ∧
    (TrimSpace title = "" → title ≠ "" → author = "" →
      (CreateBook u repo tNew tVal title author year genre isbn s).out
          = .returned (none, some "author is required") ∧
        (CreateBook u repo tNew tVal title author year genre isbn s).calls = []) ∧
    (TrimSpace title ≠ "" → TrimSpace author = "" →
      (CreateBook u repo tNew tVal title author year genre isbn s).out
          = .returned (none, some "author is required") ∧
        (CreateBook u repo tNew tVal title author year genre isbn s).calls = []) := by
  refine ⟨fun hb hor => ?_, fun hb ht ha => ?_, fun ht hb => ?_⟩
  · by_cases ht : title = ""
    · simp [CreateBook, ht]
    · have ha : author ≠ "" := hor.resolve_left ht
      have hv := newBook_validateBasic_title_blank u tNew tVal title author year genre isbn hb
      simp [CreateBook, ht, ha, hv]
  · simp [CreateBook, ht, ha]
  · have ht2 : title ≠ "" := by
      rintro rfl
      exact ht trimSpace_empty
    by_cases ha : author = ""
    · simp [CreateBook, ht2, ha]
    · have hv := newBook_validateBasic_author_blank u tNew tVal title author year genre isbn ht hb
      simp [CreateBook, ht2, ha, hv]

theorem createBook_missing_field_witness :
    TrimSpace "" = "" ∧
    (CreateBook id (fixedRepo (none, none) (none, none) (none, none)) t2025 t2025
        "" "Author" 2022 "Fiction" "9788418037016" ()).out
      = .returned (none, some "title is required") ∧
    (CreateBook id (fixedRepo (none, none) (none, none) (none, none)) t2025 t2025
        "" "Author" 2022 "Fiction" "9788418037016" ()).calls = [] :=
  ⟨by decide,
    (createBook_missing_field id (fixedRepo (none, none) (none, none) (none, none)) t2025 t2025
      "" "Author" 2022 "Fiction" "9788418037016" ()).1 (by decide) (Or.inl rfl)⟩

/-- C7. When the fields of a `CreateBook` call pass validation and the
repository's `GetByISBN` on the normalized ISBN returns a record, `CreateBook`
fails with the conflict error "isbn <normalized ISBN> already exists", returns
no book, and makes no other repository call: `Create` is never invoked. -/
theorem createBook_isbn_exists {σ : Type} (u : Char → Char) (repo : BookRepository σ)
    (tNew tVal : Time) (title author : String) (year : Nat) (genre isbn : String) (s s1 : σ)
    (existing : Book)
    (ht : title ≠ "") (ha : author ≠ "")
    (hv : (NewBook u tNew title author year genre isbn).ValidateBasic u tVal = none)
    (hg : repo.GetByISBN (NormalizeISBN u isbn) s = ((some existing, none), s1)) :
    (CreateBook u repo tNew tVal title author year genre isbn s).out
        = .returned (none, some ("isbn " ++ NormalizeISBN u isbn ++ " already exists")) ∧
    (CreateBook u repo tNew tVal title author year genre isbn s).calls
        = [Call.GetByISBN (NormalizeISBN u isbn)] ∧
    ∀ b, Call.Create b ∉ (CreateBook u repo tNew tVal title author year genre isbn s).calls := by
  have hi : (NewBook u tNew title author year genre isbn).ISBN = NormalizeISBN u isbn := rfl
  have hc : (CreateBook u repo tNew tVal title author year genre isbn s).calls
      = [Call.GetByISBN (NormalizeISBN u isbn)] := by
    simp [CreateBook, ht, ha, hv, hi, hg]
  refine ⟨?_, hc, ?_⟩
  · simp [CreateBook, ht, ha, hv, hi, hg]
  · intro b hb
    rw [hc] at hb
    simp at hb

theorem createBook_isbn_exists_witness :
    ("Nuevo Titulo" ≠ "" ∧ "Nuevo Autor" ≠ "" ∧
      (NewBook id t2025 "Nuevo Titulo" "Nuevo Autor" 2023 "Fiction"
        "978-84-18037-01-6").ValidateBasic id t2025 = none ∧
      (fixedRepo (none, none) (some (sampleBook 1 "9788418037016"), none) (none, none)).GetByISBN
        (NormalizeISBN id "978-84-18037-01-6") ()
        = ((some (sampleBook 1 "9788418037016"), none), ())) ∧
    (CreateBook id (fixedRepo (none, none) (some (sampleBook 1 "9788418037016"), none)
        (none, none)) t2025 t2025 "Nuevo Titulo" "Nuevo Autor" 2023 "Fiction"
        "978-84-18037-01-6" ()).out
      = .returned (none, some "isbn 9788418037016 already exists") :=
  ⟨⟨by decide, by decide, by decide, rfl⟩,
    (createBook_isbn_exists id
      (fixedRepo (none, none) (some (sampleBook 1 "9788418037016"), none) (none, none))
      t2025 t2025 "Nuevo Titulo" "Nuevo Autor" 2023 "Fiction" "978-84-18037-01-6" () ()
      (sampleBook 1 "9788418037016") (by decide) (by decide) (by decide) rfl).1⟩

/-! ### `UpdateBook` -/

/-- What `applyAndPersist` does with a fetched record: only an `Update` call
is added, and only with a merged record that passed `ValidateBasic`. -/
theorem applyAndPersist_calls {σ : Type} (u : Char → Char) (repo : BookRepository σ)
    (tUpd tVal : Time) (current : Option Book) (input : UpdateBookInput) (calls : List Call)
    (s : σ) :
    (applyAndPersist u repo tUpd tVal current input calls s).calls = calls ∨
    ∃ cur, current = some cur ∧ (cur.Update u tUpd input).ValidateBasic u tVal = none ∧
      (applyAndPersist u repo tUpd tVal current input calls s).calls
        = calls ++ [Call.Update (cur.Update u tUpd input)] := by
  cases current with
  | none => exact Or.inl rfl
  | some cur =>
    cases hv : (cur.Update u tUpd input).ValidateBasic u tVal with
    | some e => left; simp [applyAndPersist, hv]
    | none =>
      right
      refine ⟨cur, rfl, hv, ?_⟩
      cases hr : (repo.Update (cur.Update u tUpd input) s).1.2 with
      | some e => simp [applyAndPersist, hv, hr]
      | none => simp [applyAndPersist, hv, hr]

/-- The result of `applyAndPersist` on a fetched record whose merge is valid:
`Update` is called and its error, or else its book, is returned. -/
theorem applyAndPersist_valid {σ : Type} (u : Char → Char) (repo : BookRepository σ)
    (tUpd tVal : Time) (cur : Book) (input : UpdateBookInput) (calls : List Call) (s : σ)
    (hv : (cur.Update u tUpd input).ValidateBasic u tVal = none) :
    (applyAndPersist u repo tUpd tVal (some cur) input calls s).calls
        = calls ++ [Call.Update (cur.Update u tUpd input)] ∧
    (applyAndPersist u repo tUpd tVal (some cur) input calls s).out
        = .returned (match (repo.Update (cur.Update u tUpd input) s).1.2 with
            | some err => (none, some err)
            | none => ((repo.Update (cur.Update u tUpd input) s).1.1, none)) := by
  cases hr : (repo.Update (cur.Update u tUpd input) s).1.2 with
  | some e => simp [applyAndPersist, hv, hr]
  | none => simp [applyAndPersist, hv, hr]

/-- After a successful fetch and a valid patch, `UpdateBook` either goes on to
`applyAndPersist` having made only read calls, or stops on the uniqueness
check (a conflict, or a panic on a `nil` record) having made only read calls. -/
theorem updateBook_after_checks {σ : Type} (u : Char → Char) (repo : BookRepository σ)
    (tIn tUpd tVal : Time) (id : Nat) (input : UpdateBookInput) (s : σ)
    (hid : id ≠ 0) (hg : (repo.GetByID id s).1.2 = none)
    (hin : ValidateUpdateInput u tIn input = none) :
    (∃ pre st, UpdateBook u repo tIn tUpd tVal id input s
        = applyAndPersist u repo tUpd tVal (repo.GetByID id s).1.1 input pre st ∧
      ∀ c ∈ pre, Call.isMutation c = false) ∨
    (((UpdateBook u repo tIn tUpd tVal id input s).out = .panicked ∨
        (UpdateBook u repo tIn tUpd tVal id input s).out
          = .returned (none, some "isbn already registered by another book")) ∧
      ∀ c ∈ (UpdateBook u repo tIn tUpd tVal id input s).calls, Call.isMutation c = false) := by
  cases hisbn : input.ISBN with
  | none =>
    left
    refine ⟨[Call.GetByID id], (repo.GetByID id s).2, ?_, ?_⟩
    · simp [UpdateBook, hid, hg, hin, hisbn]
    · simp [Call.isMutation]
  | some isbn =>
    have hpre : ∀ c ∈ [Call.GetByID id, Call.GetByISBN isbn], Call.isMutation c = false := by
      simp [Call.isMutation]
    cases ho2 : (repo.GetByISBN isbn (repo.GetByID id s).2).1.2 with
    | some e =>
      left
      refine ⟨_, (repo.GetByISBN isbn (repo.GetByID id s).2).2, ?_, hpre⟩
      simp [UpdateBook, hid, hg, hin, hisbn, ho2]
    | none =>
      cases ho1 : (repo.GetByISBN isbn (repo.GetByID id s).2).1.1 with
      | none =>
        left
        refine ⟨_, (repo.GetByISBN isbn (repo.GetByID id s).2).2, ?_, hpre⟩
        simp [UpdateBook, hid, hg, hin, hisbn, ho2, ho1]
      | some other =>
        cases hcur : (repo.GetByID id s).1.1 with
        | none =>
          right
          simp [UpdateBook, hid, hg, hin, hisbn, ho2, ho1, hcur, Call.isMutation]
        | some cur =>
          by_cases hne : other.ID = cur.ID
          · left
            refine ⟨_, (repo.GetByISBN isbn (repo.GetByID id s).2).2, ?_, hpre⟩
            simp [UpdateBook, hid, hg, hin, hisbn, ho2, ho1, hcur, hne]
          · right
            simp [UpdateBook, hid, hg, hin, hisbn, ho2, ho1, hcur, hne, Call.isMutation]

/-- Every writing call of `UpdateBook` is one `Update` of the merged record,
made after the identifier check, the fetch, the patch validation and the
validation of the merged record have all passed. -/
theorem updateBook_mutation {σ : Type} (u : Char → Char) (repo : BookRepository σ)
    (tIn tUpd tVal : Time) (id : Nat) (input : UpdateBookInput) (s : σ) (c : Call)
    (hc : c ∈ (UpdateBook u repo tIn tUpd tVal id input s).calls)
    (hm : Call.isMutation c = true) :
    id ≠ 0 ∧ ValidateUpdateInput u tIn input = none ∧
    ∃ cur, (repo.GetByID id s).1 = (some cur, none) ∧
      c = Call.Update (cur.Update u tUpd input) ∧
      (cur.Update u tUpd input).ValidateBasic u tVal = none := by
  by_cases hid : id = 0
  · simp [UpdateBook, hid] at hc
  · cases hg : (repo.GetByID id s).1.2 with
    | some e =>
      simp [UpdateBook, hid, hg] at hc
      rw [hc] at hm
      simp [Call.isMutation] at hm
    | none =>
      cases hin : ValidateUpdateInput u tIn input with
      | some e =>
        simp [UpdateBook, hid, hg, hin] at hc
        rw [hc] at hm
        simp [Call.isMutation] at hm
      | none =>
        refine ⟨hid, rfl, ?_⟩
        rcases updateBook_after_checks u repo tIn tUpd tVal id input s hid hg hin with
          ⟨pre, st, he, hpre⟩ | ⟨_, hno⟩
        · rw [he] at hc
          rcases applyAndPersist_calls u repo tUpd tVal (repo.GetByID id s).1.1 input pre st with
            h1 | ⟨cur, hcur, hv, h2⟩
          · rw [h1] at hc
            rw [hpre c hc] at hm
            exact absurd hm (by decide)
          · rw [h2] at hc
            rcases List.mem_append.1 hc with hc1 | hc1
            · rw [hpre c hc1] at hm
              exact absurd hm (by decide)
            · refine ⟨cur, ?_, List.mem_singleton.1 hc1, hv⟩
              exact Prod.ext hcur hg
        · rw [hno c hc] at hm
          exact absurd hm (by decide)

/-- Every writing call of `CreateBook` is one `Create` of the constructed
record, made after the field checks and `ValidateBasic` have passed. -/
theorem createBook_mutation {σ : Type} (u : Char → Char) (repo : BookRepository σ)
    (tNew tVal : Time) (title author : String) (year : Nat) (genre isbn : String) (s : σ)
    (c : Call) (hc : c ∈ (CreateBook u repo tNew tVal title author year genre isbn s).calls)
    (hm : Call.isMutation c = true) :
    title ≠ "" ∧ author ≠ "" ∧
    c = Call.Create (NewBook u tNew title author year genre isbn) ∧
    (NewBook u tNew title author year genre isbn).ValidateBasic u tVal = none := by
  by_cases ht : title = ""
  · simp [CreateBook, ht] at hc
  · by_cases ha : author = ""
    · simp [CreateBook, ht, ha] at hc
    · cases hv : (NewBook u tNew title author year genre isbn).ValidateBasic u tVal with
      | some e => simp [CreateBook, ht, ha, hv] at hc
      | none =>
        refine ⟨ht, ha, ?_, rfl⟩
        by_cases hex : (repo.GetByISBN (NewBook u tNew title author year genre isbn).ISBN s).1.2
            = none ∧
            (repo.GetByISBN (NewBook u tNew title author year genre isbn).ISBN s).1.1 ≠ none
        · simp only [CreateBook, ht, ha, hv, if_false, hex, and_self, ne_eq, not_false_eq_true,
            if_true, List.mem_singleton] at hc
          rw [hc] at hm
          exact absurd hm (by simp [Call.isMutation])
        · have hcalls : (CreateBook u repo tNew tVal title author year genre isbn s).calls
              = [Call.GetByISBN (NewBook u tNew title author year genre isbn).ISBN,
                  Call.Create (NewBook u tNew title author year genre isbn)] := by
            simp only [CreateBook, ht, ha, hv, if_false, hex]
            split <;> rfl
          rw [hcalls] at hc
          simp only [List.mem_cons, List.mem_singleton, List.not_mem_nil, or_false] at hc
          rcases hc with hc | hc
          · rw [hc] at hm
            exact absurd hm (by simp [Call.isMutation])
          · exact hc

/-- C6. The service never persists a record that fails validation. Whenever
`CreateBook` calls `Create`, or `UpdateBook` calls `Update`, or either makes
any writing call at all, every check before it has passed and the book handed
over satisfies `ValidateBasic` (non-blank title and author, year in
`[1450, current year]`, ISBN accepted by `ValidateISBN`); and a failed check is
returned as the error, after read calls only. -/
theorem service_persists_only_valid {σ : Type} (u : Char → Char) (repo : BookRepository σ)
    (tNew tIn tUpd tVal : Time) (title author : String) (year : Nat) (genre isbn : String)
    (id : Nat) (input : UpdateBookInput) (s : σ) :
    (∀ c ∈ (CreateBook u repo tNew tVal title author year genre isbn s).calls,
      Call.isMutation c = true →
        c = Call.Create (NewBook u tNew title author year genre isbn) ∧
        title ≠ "" ∧ author ≠ "" ∧
        (NewBook u tNew title author year genre isbn).ValidateBasic u tVal = none ∧
        (NewBook u tNew title author year genre isbn).IsValid u tVal) ∧
    (∀ c ∈ (UpdateBook u repo tIn tUpd tVal id input s).calls,
      Call.isMutation c = true →
        id ≠ 0 ∧ ValidateUpdateInput u tIn input = none ∧
        ∃ cur, (repo.GetByID id s).1 = (some cur, none) ∧
          c = Call.Update (cur.Update u tUpd input) ∧
          (cur.Update u tUpd input).ValidateBasic u tVal = none ∧
          (cur.Update u tUpd input).IsValid u tVal) ∧
    ((title = "" ∨ author = "") →
      (∃ err, (CreateBook u repo tNew tVal title author year genre isbn s).out
            = .returned (none, some err)) ∧
        (CreateBook u repo tNew tVal title author year genre isbn s).calls = []) ∧
    (∀ err, title ≠ "" → author ≠ "" →
      (NewBook u tNew title author year genre isbn).ValidateBasic u tVal = some err →
        (CreateBook u repo tNew tVal title author year genre isbn s).out
            = .returned (none, some err) ∧
        (CreateBook u repo tNew tVal title author year genre isbn s).calls = []) ∧
    (id = 0 →
      (UpdateBook u repo tIn tUpd tVal id input s).out
          = .returned (none, some "id is required") ∧
        (UpdateBook u repo tIn tUpd tVal id input s).calls = []) ∧
    (∀ err, id ≠ 0 → (repo.GetByID id s).1.2 = none →
      ValidateUpdateInput u tIn input = some err →
        (UpdateBook u repo tIn tUpd tVal id input s).out = .returned (none, some err) ∧
        (UpdateBook u repo tIn tUpd tVal id input s).calls = [Call.GetByID id]) ∧
    (∀ err cur, id ≠ 0 → (repo.GetByID id s).1 = (some cur, none) →
      ValidateUpdateInput u tIn input = none →
      (cur.Update u tUpd input).ValidateBasic u tVal = some err →
        ((UpdateBook u repo tIn tUpd tVal id input s).out = .returned (none, some err) ∨
          (UpdateBook u repo tIn tUpd tVal id input s).out
            = .returned (none, some "isbn already registered by another book")) ∧
        ∀ c ∈ (UpdateBook u repo tIn tUpd tVal id input s).calls,
          Call.isMutation c = false) := by
  refine ⟨fun c hc hm => ?_, fun c hc hm => ?_, fun hor => ?_, fun err ht ha hv => ?_,
    fun hid => ?_, fun err hid hg hin => ?_, fun err cur hid hg hin hv => ?_⟩
  · obtain ⟨ht, ha, he, hv⟩ :=
      createBook_mutation u repo tNew tVal title author year genre isbn s c hc hm
    exact ⟨he, ht, ha, hv, (validateBasic_none_iff u tVal _).1 hv⟩
  · obtain ⟨hid, hin, cur, hg, he, hv⟩ :=
      updateBook_mutation u repo tIn tUpd tVal id input s c hc hm
    exact ⟨hid, hin, cur, hg, he, hv, (validateBasic_none_iff u tVal _).1 hv⟩
  · by_cases ht : title = ""
    · simp [CreateBook, ht]
    · have ha : author = "" := hor.resolve_left ht
      simp [CreateBook, ht, ha]
  · simp [CreateBook, ht, ha, hv]
  · simp [UpdateBook, hid]
  · simp [UpdateBook, hid, hg, hin]
  · have hg2 : (repo.GetByID id s).1.2 = none := by rw [hg]
    have hg1 : (repo.GetByID id s).1.1 = some cur := by rw [hg]
    have hmut : ∀ c ∈ (UpdateBook u repo tIn tUpd tVal id input s).calls,
        Call.isMutation c = false := by
      intro c hc
      cases hm : Call.isMutation c with
      | false => rfl
      | true =>
        obtain ⟨_, _, cur2, hgc, _, hv2⟩ :=
          updateBook_mutation u repo tIn tUpd tVal id input s c hc hm
        rw [hg] at hgc
        have hcc : cur = cur2 := Option.some.inj (congrArg Prod.fst hgc)
        rw [← hcc, hv] at hv2
        exact absurd hv2 (by simp)
    refine ⟨?_, hmut⟩
    rcases updateBook_after_checks u repo tIn tUpd tVal id input s hid hg2 hin with
      ⟨pre, st, he, _⟩ | ⟨hout, _⟩
    · left
      rw [he, hg1]
      simp [applyAndPersist, hv]
    · rcases hout with hp | hcf
      · exfalso
        -- a fetched record is never `nil` here, so the uniqueness check cannot panic
        cases hisbn : input.ISBN with
        | none => simp [UpdateBook, hid, hg2, hin, hisbn, hg1, applyAndPersist, hv] at hp
        | some i =>
          simp only [UpdateBook, hid, hg2, hin, hisbn, hg1, if_false] at hp
          split at hp
          · split at hp
            · simp [applyAndPersist, hv] at hp
            · simp [applyAndPersist, hv] at hp
          · simp [applyAndPersist, hv] at hp
      · exact Or.inr hcf

theorem service_persists_only_valid_witness :
    Call.Create (NewBook id t2025 "Libro" "Autor" 2022 "Fiction" "978-84-18037-01-6")
      ∈ (CreateBook id (fixedRepo (none, none) (none, some "not found") (none, none))
          t2025 t2025 "Libro" "Autor" 2022 "Fiction" "978-84-18037-01-6" ()).calls ∧
    (NewBook id t2025 "Libro" "Autor" 2022 "Fiction" "978-84-18037-01-6").IsValid id t2025 :=
  ⟨by decide,
    ((service_persists_only_valid id (fixedRepo (none, none) (none, some "not found") (none, none))
      t2025 t2025 t2025 t2025 "Libro" "Autor" 2022 "Fiction" "978-84-18037-01-6" 1
      (isbnPatch "9788418037016") ()).1
      (Call.Create (NewBook id t2025 "Libro" "Autor" 2022 "Fiction" "978-84-18037-01-6"))
      (by decide) rfl).2.2.2.2⟩

theorem validateISBN_bad_check_digit (u : Char → Char) :
    ValidateISBN u "9788418037017" = some "invalid ISBN-13 checksum" := by
  have hn : NormalizeISBN u "9788418037017" = "9788418037017" := rfl
  unfold ValidateISBN
  rw [hn]
  decide

/-- C8, the code at the failing input, which is the input of the test
`TestBookService_UpdateBook_ISBNAlreadyExists`: `UpdateBook(1, {ISBN:
"9788418037017"})` where `GetByID` answers record `cur` and `GetByISBN` answers
another record `other`, whatever the two records hold. The patch is rejected
by `ValidateUpdateInput` (the check digit of 9788418037017 is wrong) before the
uniqueness check: the error is "invalid ISBN-13 checksum", never the conflict
error, and `GetByISBN` is not called. -/
theorem updateBook_invalid_isbn_before_conflict :
    (∀ (u : Char → Char) (tIn tUpd tVal : Time) (cur other : Book),
      (UpdateBook u (fixedRepo (some cur, none) (some other, none) (none, none))
          tIn tUpd tVal 1 (isbnPatch "9788418037017") ()).out
        = .returned (none, some "invalid ISBN-13 checksum") ∧
      (UpdateBook u (fixedRepo (some cur, none) (some other, none) (none, none))
          tIn tUpd tVal 1 (isbnPatch "9788418037017") ()).calls = [Call.GetByID 1]) ∧
    ¬ ∃ (u : Char → Char) (tIn tUpd tVal : Time) (cur other : Book),
      (UpdateBook u (fixedRepo (some cur, none) (some other, none) (none, none))
          tIn tUpd tVal 1 (isbnPatch "9788418037017") ()).out
        = .returned (none, some "isbn already registered by another book") := by
  have hin : ∀ (u : Char → Char) (tIn : Time),
      ValidateUpdateInput u tIn (isbnPatch "9788418037017")
        = some "invalid ISBN-13 checksum" := by
    intro u tIn
    simp [ValidateUpdateInput, isbnPatch, validateISBN_bad_check_digit u]
  have h : ∀ (u : Char → Char) (tIn tUpd tVal : Time) (cur other : Book),
      (UpdateBook u (fixedRepo (some cur, none) (some other, none) (none, none))
          tIn tUpd tVal 1 (isbnPatch "9788418037017") ()).out
        = .returned (none, some "invalid ISBN-13 checksum") ∧
      (UpdateBook u (fixedRepo (some cur, none) (some other, none) (none, none))
          tIn tUpd tVal 1 (isbnPatch "9788418037017") ()).calls = [Call.GetByID 1] := by
    intro u tIn tUpd tVal cur other
    simp [UpdateBook, fixedRepo, hin u tIn]
  refine ⟨h, ?_⟩
  rintro ⟨u, tIn, tUpd, tVal, cur, other, hu⟩
  rw [(h u tIn tUpd tVal cur other).1] at hu
  exact absurd hu (by decide)

/-- The uniqueness check of `UpdateBook`, once it is reached: for a non-zero
id of an existing record and a patch that has passed `ValidateUpdateInput`,
when `GetByISBN` on the patch ISBN returns a record with a different
identifier, `UpdateBook` fails with "isbn already registered by another book",
returns no book, and `Update` is never invoked. -/
theorem updateBook_isbn_conflict {σ : Type} (u : Char → Char) (repo : BookRepository σ)
    (tIn tUpd tVal : Time) (id : Nat) (input : UpdateBookInput) (s s1 s2 : σ)
    (cur other : Book) (isbn : String)
    (hid : id ≠ 0) (hg : repo.GetByID id s = ((some cur, none), s1))
    (hin : ValidateUpdateInput u tIn input = none)
    (hisbn : input.ISBN = some isbn)
    (ho : repo.GetByISBN isbn s1 = ((some other, none), s2))
    (hne : other.ID ≠ cur.ID) :
    (UpdateBook u repo tIn tUpd tVal id input s).out
        = .returned (none, some "isbn already registered by another book") ∧
    (UpdateBook u repo tIn tUpd tVal id input s).calls
        = [Call.GetByID id, Call.GetByISBN isbn] ∧
    ∀ b, Call.Update b ∉ (UpdateBook u repo tIn tUpd tVal id input s).calls := by
  have hc : (UpdateBook u repo tIn tUpd tVal id input s).calls
      = [Call.GetByID id, Call.GetByISBN isbn] := by
    simp [UpdateBook, hid, hg, hin, hisbn, ho, hne]
  refine ⟨?_, hc, ?_⟩
  · simp [UpdateBook, hid, hg, hin, hisbn, ho, hne]
  · intro b hb
    rw [hc] at hb
    simp at hb

theorem updateBook_isbn_conflict_witness :
    ((1 : Nat) ≠ 0 ∧
      ValidateUpdateInput id t2025 (isbnPatch "9788418037023") = none ∧
      (sampleBook 2 "9788418037023").ID ≠ (sampleBook 1 "9788418037016").ID) ∧
    (UpdateBook id (fixedRepo (some (sampleBook 1 "9788418037016"), none)
        (some (sampleBook 2 "9788418037023"), none) (none, none))
        t2025 t2025 t2025 1 (isbnPatch "9788418037023") ()).out
      = .returned (none, some "isbn already registered by another book") :=
  ⟨⟨by decide, by decide, by decide⟩,
    (updateBook_isbn_conflict id (fixedRepo (some (sampleBook 1 "9788418037016"), none)
        (some (sampleBook 2 "9788418037023"), none) (none, none))
      t2025 t2025 t2025 1 (isbnPatch "9788418037023") () () ()
      (sampleBook 1 "9788418037016") (sampleBook 2 "9788418037023") "9788418037023"
      (by decide) rfl (by decide) rfl rfl (by decide)).1⟩

/-- C9. For every `UpdateBook` call with a non-zero id of an existing record,
a patch that passes `ValidateUpdateInput` and a merged record that passes
`ValidateBasic`: when `GetByISBN` on the patch ISBN returns the record with the
identifier of the one being updated, no conflict is raised, `Update` is called
with the merged record, and `UpdateBook` returns what `Update` returned (its
error, or else its book), not the merged value. -/
theorem updateBook_same_isbn {σ : Type} (u : Char → Char) (repo : BookRepository σ)
    (tIn tUpd tVal : Time) (id : Nat) (input : UpdateBookInput) (s s1 s2 : σ)
    (cur other : Book) (isbn : String)
    (hid : id ≠ 0) (hg : repo.GetByID id s = ((some cur, none), s1))
    (hin : ValidateUpdateInput u tIn input = none)
    (hisbn : input.ISBN = some isbn)
    (ho : repo.GetByISBN isbn s1 = ((some other, none), s2))
    (hsame : other.ID = cur.ID)
    (hv : (cur.Update u tUpd input).ValidateBasic u tVal = none) :
    (UpdateBook u repo tIn tUpd tVal id input s).calls
        = [Call.GetByID id, Call.GetByISBN isbn, Call.Update (cur.Update u tUpd input)] ∧
    (UpdateBook u repo tIn tUpd tVal id input s).out
        = .returned (match (repo.Update (cur.Update u tUpd input) s2).1.2 with
            | some err => (none, some err)
            | none => ((repo.Update (cur.Update u tUpd input) s2).1.1, none)) := by
  have he : UpdateBook u repo tIn tUpd tVal id input s
      = applyAndPersist u repo tUpd tVal (some cur) input
          [Call.GetByID id, Call.GetByISBN isbn] s2 := by
    simp [UpdateBook, hid, hg, hin, hisbn, ho, hsame]
  rw [he]
  exact applyAndPersist_valid u repo tUpd tVal cur input _ s2 hv

theorem updateBook_same_isbn_witness :
    ((1 : Nat) ≠ 0 ∧
      ValidateUpdateInput id t2025 (isbnPatch "9788418037016") = none ∧
      ((sampleBook 1 "9788418037016").Update id t2025 (isbnPatch "9788418037016")).ValidateBasic
        id t2025 = none) ∧
    (UpdateBook id (fixedRepo (some (sampleBook 1 "9788418037016"), none)
        (some (sampleBook 1 "9788418037016"), none) (some (sampleBook 7 "080442957X"), none))
        t2025 t2025 t2025 1 (isbnPatch "9788418037016") ()).out
      = .returned (some (sampleBook 7 "080442957X"), none) :=
  ⟨⟨by decide, by decide, by decide⟩,
    (updateBook_same_isbn id (fixedRepo (some (sampleBook 1 "9788418037016"), none)
        (some (sampleBook 1 "9788418037016"), none) (some (sampleBook 7 "080442957X"), none))
      t2025 t2025 t2025 1 (isbnPatch "9788418037016") () () ()
      (sampleBook 1 "9788418037016") (sampleBook 1 "9788418037016") "9788418037016"
      (by decide) rfl (by decide) rfl rfl rfl (by decide)).2⟩

/-! ### Identifier checks and `DeleteBook` -/

/-- C11. For every patch and every repository, `UpdateBook(0, patch)`,
`DeleteBook(0)` and `GetBookByID(0)` each fail with the missing-field error
"id is required" and make no repository call. -/
theorem zero_id_is_rejected {σ : Type} (u : Char → Char) (repo : BookRepository σ)
    (tIn tUpd tVal : Time) (input : UpdateBookInput) (s : σ) :
    ((UpdateBook u repo tIn tUpd tVal 0 input s).out
        = .returned (none, some "id is required") ∧
      (UpdateBook u repo tIn tUpd tVal 0 input s).calls = []) ∧
    ((DeleteBook repo 0 s).out = .returned (some "id is required") ∧
      (DeleteBook repo 0 s).calls = []) ∧
    ((GetBookByID repo 0 s).out = .returned (none, some "id is required") ∧
      (GetBookByID repo 0 s).calls = []) ∧
    IsMissingField "id is required" := by
  refine ⟨⟨rfl, rfl⟩, ⟨rfl, rfl⟩, ⟨rfl, rfl⟩, ?_⟩
  unfold IsMissingField
  simp

/-- C12. For every non-zero id: when the repository's `GetByID` fails,
`DeleteBook` fails with "book <id> not found: <cause>" and `Delete` is never
invoked; when `GetByID` succeeds, `DeleteBook` invokes `Delete` exactly once,
with that id, and returns its result. -/
theorem deleteBook_checks_existence {σ : Type} (repo : BookRepository σ) (id : Nat) (s : σ)
    (hid : id ≠ 0) :
    (∀ cause, (repo.GetByID id s).1.2 = some cause →
      (DeleteBook repo id s).out
          = .returned (some ("book " ++ toString id ++ " not found: " ++ cause)) ∧
        (DeleteBook repo id s).calls = [Call.GetByID id] ∧
        ∀ k, Call.Delete k ∉ (DeleteBook repo id s).calls) ∧
    ((repo.GetByID id s).1.2 = none →
      (DeleteBook repo id s).calls = [Call.GetByID id, Call.Delete id] ∧
        ((DeleteBook repo id s).calls.filter Call.isMutation) = [Call.Delete id] ∧
        (DeleteBook repo id s).out = .returned (repo.Delete id (repo.GetByID id s).2).1 ∧
        (DeleteBook repo id s).state = (repo.Delete id (repo.GetByID id s).2).2) := by
  refine ⟨fun cause hg => ?_, fun hg => ?_⟩
  · have hc : (DeleteBook repo id s).calls = [Call.GetByID id] := by
      simp [DeleteBook, hid, hg]
    refine ⟨?_, hc, ?_⟩
    · simp [DeleteBook, hid, hg]
    · intro k hk
      rw [hc] at hk
      simp at hk
  · have hc : (DeleteBook repo id s).calls = [Call.GetByID id, Call.Delete id] := by
      simp [DeleteBook, hid, hg]
    refine ⟨hc, ?_, ?_, ?_⟩
    · rw [hc]
      simp [Call.isMutation]
    · simp [DeleteBook, hid, hg]
    · simp [DeleteBook, hid, hg]

theorem deleteBook_checks_existence_witness :
    (1 : Nat) ≠ 0 ∧
    (DeleteBook (fixedRepo (none, some "not found") (none, none) (none, none)) 1 ()).out
      = .returned (some "book 1 not found: not found") ∧
    (DeleteBook (fixedRepo (some (sampleBook 1 "9788418037016"), none) (none, none)
        (none, none)) 1 ()).calls = [Call.GetByID 1, Call.Delete 1] :=
  ⟨by decide,
    ((deleteBook_checks_existence (fixedRepo (none, some "not found") (none, none) (none, none))
      1 () (by decide)).1 "not found" rfl).1,
    ((deleteBook_checks_existence (fixedRepo (some (sampleBook 1 "9788418037016"), none)
      (none, none) (none, none)) 1 () (by decide)).2 rfl).1⟩

/-! ### `ValidateBasic`, `ValidateUpdateInput`, `ValidateYear` and `Update` -/

theorem validateYear_error (now : Time) (y : Nat) (e : Error)
    (h : ValidateYear now y = some e) : IsInvalidYear e := by
  unfold ValidateYear at h
  split at h
  · exact (Option.some.inj h).symm
  · exact absurd h (by simp)

theorem validateISBN_error (u : Char → Char) (isbn : String) (e : Error)
    (h : ValidateISBN u isbn = some e) : IsInvalidISBN e := by
  unfold ValidateISBN checkNormalized at h
  unfold IsInvalidISBN
  split at h
  · split at h
    · exact Or.inr (Or.inl (Option.some.inj h).symm)
    · exact absurd h (by simp)
  · split at h
    · split at h
      · exact Or.inr (Or.inr (Option.some.inj h).symm)
      · exact absurd h (by simp)
    · exact Or.inl (Option.some.inj h).symm

/-- C13. For every book and every current year, `ValidateBasic` succeeds
exactly when the title and the author are non-empty after trimming,
`ValidateYear` accepts the year and `ValidateISBN` accepts the ISBN. When it
fails, the error is the missing-field one for a blank title, else the
missing-field one for a blank author, else the invalid-year one of
`ValidateYear`, else the invalid-ISBN one of `ValidateISBN`. -/
theorem validateBasic_spec (u : Char → Char) (now : Time) (b : Book) :
    (b.ValidateBasic u now = none ↔
      TrimSpace b.Title ≠ "" ∧ TrimSpace b.Author ≠ "" ∧
        ValidateYear now b.Year = none ∧ ValidateISBN u b.ISBN = none) ∧
    (TrimSpace b.Title = "" →
      b.ValidateBasic u now = some "title is required" ∧
        IsMissingField "title is required") ∧
    (TrimSpace b.Title ≠ "" → TrimSpace b.Author = "" →
      b.ValidateBasic u now = some "author is required" ∧
        IsMissingField "author is required") ∧
    (TrimSpace b.Title ≠ "" → TrimSpace b.Author ≠ "" →
      ∀ e, ValidateYear now b.Year = some e →
        b.ValidateBasic u now = some e ∧ IsInvalidYear e) ∧
    (TrimSpace b.Title ≠ "" → TrimSpace b.Author ≠ "" → ValidateYear now b.Year = none →
      ∀ e, ValidateISBN u b.ISBN = some e →
        b.ValidateBasic u now = some e ∧ IsInvalidISBN e) := by
  refine ⟨?_, fun h1 => ⟨?_, ?_⟩, fun h1 h2 => ⟨?_, ?_⟩, fun h1 h2 e h3 => ⟨?_, ?_⟩,
    fun h1 h2 h3 e h4 => ⟨?_, ?_⟩⟩
  · rw [validateBasic_none_iff, Book.IsValid, validateYear_none_iff]
  · simp [Book.ValidateBasic, h1]
  · simp [IsMissingField]
  · simp [Book.ValidateBasic, h1, h2]
  · simp [IsMissingField]
  · simp [Book.ValidateBasic, h1, h2, h3]
  · exact validateYear_error now b.Year e h3
  · simp [Book.ValidateBasic, h1, h2, h3, h4]
  · exact validateISBN_error u b.ISBN e h4

theorem validateBasic_spec_witness :
    ((sampleBook 1 "9788418037016").ValidateBasic id t2025 = none) ∧
    ({ sampleBook 1 "9788418037017" with Year := 1449 } : Book).ValidateBasic id t2025
      = some "year must be between 1450 and current year" :=
  ⟨(validateBasic_spec id t2025 (sampleBook 1 "9788418037016")).1.2
      ⟨by decide, by decide, by decide, by decide⟩,
    ((validateBasic_spec id t2025 { sampleBook 1 "9788418037017" with Year := 1449 }).2.2.2.1
      (by decide) (by decide) _ (by decide)).1⟩

/-- C14. `ValidateUpdateInput` checks only the fields present in the patch:
the empty patch always succeeds; a patch fails exactly when a present title or
author is empty after trimming, a present year is rejected by `ValidateYear`,
or a present ISBN is rejected by `ValidateISBN`; the genre, present or not,
never changes the result. -/
theorem validateUpdateInput_spec (u : Char → Char) (now : Time) (input : UpdateBookInput) :
    ValidateUpdateInput u now emptyPatch = none ∧
    (ValidateUpdateInput u now input ≠ none ↔
      (∃ t, input.Title = some t ∧ TrimSpace t = "") ∨
      (∃ a, input.Author = some a ∧ TrimSpace a = "") ∨
      (∃ y, input.Year = some y ∧ ValidateYear now y ≠ none) ∨
      (∃ i, input.ISBN = some i ∧ ValidateISBN u i ≠ none)) ∧
    (∀ g, ValidateUpdateInput u now { input with Genre := g }
      = ValidateUpdateInput u now input) := by
  refine ⟨rfl, ?_, fun g => rfl⟩
  obtain ⟨title, author, year, genre, isbn⟩ := input
  unfold ValidateUpdateInput
  cases title with
  | some t =>
    by_cases ht : TrimSpace t = ""
    · simp [ht]
    · cases author with
      | some a =>
        by_cases ha : TrimSpace a = ""
        · simp [ht, ha]
        · cases year with
          | some y =>
            cases hy : ValidateYear now y with
            | some e => simp [ht, ha, hy]
            | none =>
              cases isbn with
              | some i => cases hi : ValidateISBN u i <;> simp [ht, ha, hy, hi]
              | none => simp [ht, ha, hy]
          | none =>
            cases isbn with
            | some i => cases hi : ValidateISBN u i <;> simp [ht, ha, hi]
            | none => simp [ht, ha]
      | none =>
        cases year with
        | some y =>
          cases hy : ValidateYear now y with
          | some e => simp [ht, hy]
          | none =>
            cases isbn with
            | some i => cases hi : ValidateISBN u i <;> simp [ht, hy, hi]
            | none => simp [ht, hy]
        | none =>
          cases isbn with
          | some i => cases hi : ValidateISBN u i <;> simp [ht, hi]
          | none => simp [ht]
  | none =>
    cases author with
    | some a =>
      by_cases ha : TrimSpace a = ""
      · simp [ha]
      · cases year with
        | some y =>
          cases hy : ValidateYear now y with
          | some e => simp [ha, hy]
          | none =>
            cases isbn with
            | some i => cases hi : ValidateISBN u i <;> simp [ha, hy, hi]
            | none => simp [ha, hy]
        | none =>
          cases isbn with
          | some i => cases hi : ValidateISBN u i <;> simp [ha, hi]
          | none => simp [ha]
    | none =>
      cases year with
      | some y =>
        cases hy : ValidateYear now y with
        | some e => simp [hy]
        | none =>
          cases isbn with
          | some i => cases hi : ValidateISBN u i <;> simp [hy, hi]
          | none => simp [hy]
      | none =>
        cases isbn with
        | some i => cases hi : ValidateISBN u i <;> simp [hi]
        | none => simp

/-- C15. For every book and patch, `Update` sets each present field to its
trimmed (title, author, genre), verbatim (year) or normalized (ISBN) value,
leaves every absent field, the identifier and the created timestamp
unchanged, and sets the updated timestamp to the current instant; with the
empty patch only the updated timestamp changes. -/
theorem update_frame (u : Char → Char) (now : Time) (b : Book) (input : UpdateBookInput) :
    (b.Update u now input).Title = (input.Title.map TrimSpace).getD b.Title ∧
    (b.Update u now input).Author = (input.Author.map TrimSpace).getD b.Author ∧
    (b.Update u now input).Year = input.Year.getD b.Year ∧
    (b.Update u now input).Genre = (input.Genre.map TrimSpace).getD b.Genre ∧
    (b.Update u now input).ISBN = (input.ISBN.map (NormalizeISBN u)).getD b.ISBN ∧
    (b.Update u now input).ID = b.ID ∧
    (b.Update u now input).CreatedAt = b.CreatedAt ∧
    (b.Update u now input).UpdatedAt = now ∧
    b.Update u now emptyPatch = { b with UpdatedAt := now } := by
  obtain ⟨title, author, year, genre, isbn⟩ := input
  cases title <;> cases author <;> cases year <;> cases genre <;> cases isbn <;>
    simp [Book.Update, emptyPatch]

/-- C16. For every unsigned year `y` (a 64-bit `uint`, values above the
signed range included) and every current year `c` (an `int`), `ValidateYear`
succeeds exactly when `1450 ≤ y ≤ c`. So 1449 fails, 1450 succeeds once the
current year has reached 1450, and `c + 1` fails. -/
theorem validateYear_spec (now : Time) (y : Nat) (hy : y < 2 ^ 64)
    (hc : now.year < 2 ^ 63) :
    (ValidateYear now y = none ↔ 1450 ≤ (y : Int) ∧ (y : Int) ≤ now.year) ∧
    (ValidateYear now y ≠ none → ValidateYear now y
      = some "year must be between 1450 and current year") ∧
    ValidateYear now 1449 = some "year must be between 1450 and current year" ∧
    (1450 ≤ now.year → ValidateYear now 1450 = none) ∧
    (0 ≤ now.year → ValidateYear now (now.year.toNat + 1)
      = some "year must be between 1450 and current year") := by
  have key : ∀ z : Nat, z < 2 ^ 64 →
      (ValidateYear now z = none ↔ 1450 ≤ (z : Int) ∧ (z : Int) ≤ now.year) := by
    intro z hz
    rw [validateYear_none_iff]
    unfold uintToInt
    rw [Nat.mod_eq_of_lt hz]
    split <;> omega
  have fails : ∀ z : Nat, ValidateYear now z ≠ none →
      ValidateYear now z = some "year must be between 1450 and current year" := by
    intro z hz
    unfold ValidateYear at hz ⊢
    split
    · rfl
    · rename_i h
      rw [if_neg h] at hz
      exact absurd rfl hz
  refine ⟨key y hy, fails y, ?_, fun h => ?_, fun h => ?_⟩
  · apply fails
    rw [Ne, key 1449 (by norm_num)]
    omega
  · rw [key 1450 (by norm_num)]
    omega
  · apply fails
    have hlt : now.year.toNat + 1 < 2 ^ 64 := by omega
    rw [Ne, key _ hlt]
    omega

theorem validateYear_spec_witness :
    ((2 ^ 63 + 2000 : Nat) < 2 ^ 64 ∧ t2025.year < 2 ^ 63) ∧
    ValidateYear t2025 (2 ^ 63 + 2000) ≠ none ∧
    ValidateYear t2025 1449 = some "year must be between 1450 and current year" ∧
    ValidateYear t2025 1450 = none ∧
    ValidateYear t2025 2026 = some "year must be between 1450 and current year" :=
  have h := validateYear_spec t2025 (2 ^ 63 + 2000) (by norm_num) (by decide)
  ⟨⟨by norm_num, by decide⟩,
    fun hn => absurd (h.1.1 hn).2 (by decide),
    h.2.2.1, h.2.2.2.1 (by decide), h.2.2.2.2 (by decide)⟩

/-! ### Single-character sensitivity of the check digits -/

theorem char_eq_of_toNat_eq (c d : Char) (h : c.toNat = d.toNat) : c = d := by
  rw [← Char.ofNat_toNat c, ← Char.ofNat_toNat d, h]

theorem digitValue_le (c : Char) (h : isDigit c = true) : digitValue c ≤ 9 := by
  simp only [isDigit, Bool.and_eq_true, decide_eq_true_eq] at h
  unfold digitValue
  omega

theorem digitValue_ne (c d : Char) (hc : isDigit c = true) (hd : isDigit d = true)
    (hne : c ≠ d) : digitValue c ≠ digitValue d := by
  simp only [isDigit, Bool.and_eq_true, decide_eq_true_eq] at hc hd
  unfold digitValue
  intro h
  exact hne (char_eq_of_toNat_eq c d (by omega))

theorem isDigit_ne_X (c : Char) (h : isDigit c = true) : c ≠ 'X' := by
  rintro rfl
  exact absurd h (by decide)

/-- A string made of decimal digits and `X` only is left as it is by
`NormalizeISBN`. -/
theorem normalizeISBN_fixed (u : Char → Char) (s : String)
    (h : ∀ c ∈ s.data, isDigit c = true ∨ c = 'X') : NormalizeISBN u s = s := by
  have hX : ('X' : Char).toNat = 88 := by decide
  have hrange : ∀ c ∈ s.data, 48 ≤ c.toNat ∧ c.toNat ≤ 88 := by
    intro c hc
    rcases h c hc with hd | rfl
    · simp only [isDigit, Bool.and_eq_true, decide_eq_true_eq] at hd
      omega
    · omega
  have hsp : ∀ c ∈ s.data, isSpace c = false := by
    intro c hc
    have := hrange c hc
    unfold isSpace
    simp
    omega
  have hkeep : ∀ c ∈ s.data, (c != '-' && c != ' ') = true := by
    intro c hc
    have := hrange c hc
    have h1 : c ≠ '-' := by
      rintro rfl
      have : ('-' : Char).toNat = 45 := by decide
      omega
    have h2 : c ≠ ' ' := by
      rintro rfl
      have : (' ' : Char).toNat = 32 := by decide
      omega
    simp [h1, h2]
  have hup : ∀ c ∈ s.data, toUpperRune u c = c := by
    intro c hc
    have := hrange c hc
    unfold toUpperRune
    rw [if_pos (by omega), if_neg (by omega)]
  have htrim : (TrimSpace s).data = s.data := by
    unfold TrimSpace
    have h1 : List.dropWhile isSpace s.data = s.data := by
      rw [List.dropWhile_eq_self_iff]
      intro hl
      rw [hsp _ (List.get_mem _ _ _)]
      simp
    have h2 : List.rdropWhile isSpace s.data = s.data := by
      rw [List.rdropWhile_eq_self_iff]
      intro hl
      rw [hsp _ (List.getLast_mem hl)]
      simp
    simp only [h1, h2]
  apply String.ext
  rw [normalizeISBN_data, htrim, List.filter_eq_self.2 hkeep]
  calc List.map (toUpperRune u) s.data = List.map (fun c => c) s.data :=
        List.map_congr_left hup
    _ = s.data := List.map_id' s.data

theorem charAt_set (s : String) (i j : Nat) (c : Char) (hi : i < s.data.length) :
    charAt ⟨s.data.set i c⟩ j = if j = i then c else charAt s j := by
  unfold charAt
  simp only [List.getD_eq_getElem?_getD, List.getElem?_set]
  by_cases h : i = j
  · subst h
    have hi2 : i < s.length := hi
    simp [hi2]
  · have h2 : ¬ j = i := fun e => h e.symm
    simp [h, h2]

theorem mem_digitOrX_of_ten (n : String) (h : IsNineDigitsThenDigitOrX n) :
    ∀ c ∈ n.data, isDigit c = true ∨ c = 'X' := by
  intro c hc
  obtain ⟨hl, hd, hlast⟩ := h
  have hl2 : n.data.length = 10 := hl
  obtain ⟨i, hi, rfl⟩ := List.getElem_of_mem hc
  rw [← charAt_eq_getElem n i hi]
  by_cases h9 : i < 9
  · exact Or.inl (hd i h9)
  · have : i = 9 := by omega
    subst this
    exact hlast

theorem mem_digit_of_thirteen (n : String) (h : IsThirteenDigits n) :
    ∀ c ∈ n.data, isDigit c = true ∨ c = 'X' := by
  intro c hc
  obtain ⟨hl, hd⟩ := h
  have hl2 : n.data.length = 13 := hl
  obtain ⟨i, hi, rfl⟩ := List.getElem_of_mem hc
  rw [← charAt_eq_getElem n i hi]
  exact Or.inl (hd i (by omega))

/-- On a string of the ISBN-10 shape the switch of `ValidateISBN` takes the
first branch: the string passes exactly when its sum is `0` modulo 11. -/
theorem checkNormalized_ten (n : String) (h : IsNineDigitsThenDigitOrX n) :
    (checkNormalized n = none ↔ specSum10 n % 11 = 0) ∧
    (specSum10 n % 11 ≠ 0 → checkNormalized n = some "invalid ISBN-10 checksum") := by
  have h10 : re10 n = true := (re10_iff n).2 h
  unfold checkNormalized
  rw [h10, sum10_eq_specSum10 n h]
  by_cases hc : specSum10 n % 11 = 0 <;> simp [hc]

/-- On a string of 13 digits the switch of `ValidateISBN` takes the second
branch: the string passes exactly when the last digit is the expected one. -/
theorem checkNormalized_thirteen (n : String) (h : IsThirteenDigits n) :
    (checkNormalized n = none ↔
      digitValue (charAt n 12) = (10 - specSum13 n % 10) % 10) ∧
    (digitValue (charAt n 12) ≠ (10 - specSum13 n % 10) % 10 →
      checkNormalized n = some "invalid ISBN-13 checksum") := by
  have h13 : re13 n = true := (re13_iff n).2 h
  have h10 := re10_false_of_thirteen n h
  have hl : n.data.length = 13 := h.1
  have e12 := digitAt_eq_digitValue n 12 (by omega) (h.2 12 (by omega))
  unfold checkNormalized
  rw [h10, h13, sum13_eq_specSum13 n h, e12]
  by_cases hc : digitValue (charAt n 12) = (10 - specSum13 n % 10) % 10 <;> simp [hc]

theorem specSum10_expand (n : String) :
    specSum10 n = 10 * digitValue (charAt n 0) + 9 * digitValue (charAt n 1)
      + 8 * digitValue (charAt n 2) + 7 * digitValue (charAt n 3)
      + 6 * digitValue (charAt n 4) + 5 * digitValue (charAt n 5)
      + 4 * digitValue (charAt n 6) + 3 * digitValue (charAt n 7)
      + 2 * digitValue (charAt n 8)
      + (if charAt n 9 = 'X' then 10 else digitValue (charAt n 9)) := by
  simp [specSum10, Finset.sum_range_succ]

theorem set_ten_shape (s : String) (i : Nat) (c : Char) (hs : IsNineDigitsThenDigitOrX s)
    (hi : i < 10) (hc : isDigit c = true ∨ (i = 9 ∧ c = 'X')) :
    IsNineDigitsThenDigitOrX ⟨s.data.set i c⟩ := by
  obtain ⟨hl, hd, hlast⟩ := hs
  have hl2 : s.data.length = 10 := hl
  refine ⟨?_, fun j hj => ?_, ?_⟩
  · show (s.data.set i c).length = 10
    rw [List.length_set]
    exact hl2
  · rw [charAt_set s i j c (by omega)]
    by_cases hji : j = i
    · rw [if_pos hji]
      rcases hc with hc | ⟨h9, _⟩
      · exact hc
      · omega
    · rw [if_neg hji]
      exact hd j hj
  · rw [charAt_set s i 9 c (by omega)]
    by_cases h9 : 9 = i
    · rw [if_pos h9]
      rcases hc with hc | ⟨_, hX⟩
      · exact Or.inl hc
      · exact Or.inr hX
    · rw [if_neg h9]
      exact hlast

/-- C17. ISBN-10 single-character sensitivity: for every normalized ISBN-10
string `s` that `ValidateISBN` accepts and every position `i` in 0..9,
replacing the character at `i` by a different admissible character (a
different digit, or `X` at position 9) yields a string that `ValidateISBN`
rejects with the checksum error: no single change preserves the sum modulo
11. -/
theorem isbn10_single_character_sensitivity (u : Char → Char) (s : String) (i : Nat)
    (c : Char) (hs : IsNineDigitsThenDigitOrX s) (hacc : ValidateISBN u s = none)
    (hi : i < 10) (hc : isDigit c = true ∨ (i = 9 ∧ c = 'X')) (hne : c ≠ charAt s i) :
    ValidateISBN u ⟨s.data.set i c⟩ = some "invalid ISBN-10 checksum" := by
  have hl : s.data.length = 10 := hs.1
  have hs2 := set_ten_shape s i c hs hi hc
  have hacc2 : specSum10 s % 11 = 0 := by
    unfold ValidateISBN at hacc
    rw [normalizeISBN_fixed u s (mem_digitOrX_of_ten s hs)] at hacc
    exact (checkNormalized_ten s hs).1.1 hacc
  unfold ValidateISBN
  rw [normalizeISBN_fixed u _ (mem_digitOrX_of_ten _ hs2)]
  apply (checkNormalized_ten _ hs2).2
  have hch : ∀ j, charAt ⟨s.data.set i c⟩ j = if j = i then c else charAt s j :=
    fun j => charAt_set s i j c (by omega)
  have b0 := digitValue_le _ (hs.2.1 0 (by omega))
  have b1 := digitValue_le _ (hs.2.1 1 (by omega))
  have b2 := digitValue_le _ (hs.2.1 2 (by omega))
  have b3 := digitValue_le _ (hs.2.1 3 (by omega))
  have b4 := digitValue_le _ (hs.2.1 4 (by omega))
  have b5 := digitValue_le _ (hs.2.1 5 (by omega))
  have b6 := digitValue_le _ (hs.2.1 6 (by omega))
  have b7 := digitValue_le _ (hs.2.1 7 (by omega))
  have b8 := digitValue_le _ (hs.2.1 8 (by omega))
  rw [specSum10_expand] at hacc2 ⊢
  by_cases h9 : i = 9
  · subst h9
    have hold : (if charAt s 9 = 'X' then 10 else digitValue (charAt s 9)) ≤ 10 := by
      split
      · exact le_refl _
      · rcases hs.2.2 with hd | hX
        · have := digitValue_le _ hd
          omega
        · rename_i hn
          exact absurd hX hn
    have hdiff : (if c = 'X' then 10 else digitValue c)
        ≠ (if charAt s 9 = 'X' then 10 else digitValue (charAt s 9)) := by
      by_cases hcX : c = 'X'
      · have hsX : charAt s 9 ≠ 'X' := fun e => hne (hcX.trans e.symm)
        have hd : isDigit (charAt s 9) = true := hs.2.2.resolve_right hsX
        have := digitValue_le _ hd
        rw [if_pos hcX, if_neg hsX]
        omega
      · have hcd : isDigit c = true := by
          rcases hc with hc | ⟨_, hX⟩
          · exact hc
          · exact absurd hX hcX
        have hcb := digitValue_le _ hcd
        rw [if_neg hcX]
        by_cases hsX : charAt s 9 = 'X'
        · rw [if_pos hsX]
          omega
        · rw [if_neg hsX]
          exact digitValue_ne _ _ hcd (hs.2.2.resolve_right hsX) hne
    have hnew : (if c = 'X' then 10 else digitValue c) ≤ 10 := by
      split
      · exact le_refl _
      · rename_i hcX
        rcases hc with hc | ⟨_, hX⟩
        · have := digitValue_le _ hc
          omega
        · exact absurd hX hcX
    simp only [hch, Nat.reduceEqDiff, OfNat.zero_ne_ofNat, OfNat.one_ne_ofNat, if_false, if_true]
    generalize (if charAt s 9 = 'X' then 10 else digitValue (charAt s 9)) = L at hacc2 hold hdiff
    generalize (if c = 'X' then 10 else digitValue c) = L2 at hdiff hnew ⊢
    omega
  · have hcd : isDigit c = true := by
      rcases hc with hc | ⟨h, _⟩
      · exact hc
      · exact absurd h h9
    have hcb := digitValue_le _ hcd
    have hlt : i < 9 := by omega
    have hdiff := digitValue_ne _ _ hcd (hs.2.1 i hlt) hne
    interval_cases i <;>
      simp only [hch, Nat.reduceEqDiff, OfNat.zero_ne_ofNat, OfNat.ofNat_ne_zero,
        OfNat.ofNat_ne_one, OfNat.one_ne_ofNat, zero_ne_one, one_ne_zero, if_false,
        if_true] <;>
      generalize (if charAt s 9 = 'X' then 10 else digitValue (charAt s 9)) = L at hacc2 ⊢ <;>
      omega

theorem isbn10_single_character_sensitivity_witness :
    (IsNineDigitsThenDigitOrX "080442957X" ∧ ValidateISBN id "080442957X" = none ∧
      '5' ≠ charAt "080442957X" 9) ∧
    ValidateISBN id ⟨("080442957X" : String).data.set 9 '5'⟩
      = some "invalid ISBN-10 checksum" :=
  ⟨⟨by decide, by decide, by decide⟩,
    isbn10_single_character_sensitivity id "080442957X" 9 '5' (by decide) (by decide)
      (by decide) (Or.inl (by decide)) (by decide)⟩

theorem specSum13_expand (n : String) :
    specSum13 n = digitValue (charAt n 0) + 3 * digitValue (charAt n 1)
      + digitValue (charAt n 2) + 3 * digitValue (charAt n 3)
      + digitValue (charAt n 4) + 3 * digitValue (charAt n 5)
      + digitValue (charAt n 6) + 3 * digitValue (charAt n 7)
      + digitValue (charAt n 8) + 3 * digitValue (charAt n 9)
      + digitValue (charAt n 10) + 3 * digitValue (charAt n 11) := by
  simp [specSum13, Finset.sum_range_succ]

theorem set_thirteen_shape (s : String) (i : Nat) (c : Char) (hs : IsThirteenDigits s)
    (hi : i < 13) (hc : isDigit c = true) : IsThirteenDigits ⟨s.data.set i c⟩ := by
  obtain ⟨hl, hd⟩ := hs
  have hl2 : s.data.length = 13 := hl
  refine ⟨?_, fun j hj => ?_⟩
  · show (s.data.set i c).length = 13
    rw [List.length_set]
    exact hl2
  · rw [charAt_set s i j c (by omega)]
    by_cases hji : j = i
    · rw [if_pos hji]
      exact hc
    · rw [if_neg hji]
      exact hd j hj

/-- C18. ISBN-13 single-digit sensitivity: for every 13-digit string `s` that
`ValidateISBN` accepts and every position `i` in 0..12, replacing the digit at
`i` by a different digit yields a string that `ValidateISBN` rejects with the
checksum error. -/
theorem isbn13_single_digit_sensitivity (u : Char → Char) (s : String) (i : Nat) (c : Char)
    (hs : IsThirteenDigits s) (hacc : ValidateISBN u s = none) (hi : i < 13)
    (hc : isDigit c = true) (hne : c ≠ charAt s i) :
    ValidateISBN u ⟨s.data.set i c⟩ = some "invalid ISBN-13 checksum" := by
  have hl : s.data.length = 13 := hs.1
  have hs2 := set_thirteen_shape s i c hs hi hc
  have hacc2 : digitValue (charAt s 12) = (10 - specSum13 s % 10) % 10 := by
    unfold ValidateISBN at hacc
    rw [normalizeISBN_fixed u s (mem_digit_of_thirteen s hs)] at hacc
    exact (checkNormalized_thirteen s hs).1.1 hacc
  unfold ValidateISBN
  rw [normalizeISBN_fixed u _ (mem_digit_of_thirteen _ hs2)]
  apply (checkNormalized_thirteen _ hs2).2
  have hch : ∀ j, charAt ⟨s.data.set i c⟩ j = if j = i then c else charAt s j :=
    fun j => charAt_set s i j c (by omega)
  have b0 := digitValue_le _ (hs.2 0 (by omega))
  have b1 := digitValue_le _ (hs.2 1 (by omega))
  have b2 := digitValue_le _ (hs.2 2 (by omega))
  have b3 := digitValue_le _ (hs.2 3 (by omega))
  have b4 := digitValue_le _ (hs.2 4 (by omega))
  have b5 := digitValue_le _ (hs.2 5 (by omega))
  have b6 := digitValue_le _ (hs.2 6 (by omega))
  have b7 := digitValue_le _ (hs.2 7 (by omega))
  have b8 := digitValue_le _ (hs.2 8 (by omega))
  have b9 := digitValue_le _ (hs.2 9 (by omega))
  have b10 := digitValue_le _ (hs.2 10 (by omega))
  have b11 := digitValue_le _ (hs.2 11 (by omega))
  have b12 := digitValue_le _ (hs.2 12 (by omega))
  have hcb := digitValue_le _ hc
  have hdiff := digitValue_ne _ _ hc (hs.2 i hi) hne
  rw [specSum13_expand] at hacc2 ⊢
  interval_cases i <;>
    simp only [hch, Nat.reduceEqDiff, OfNat.zero_ne_ofNat, OfNat.ofNat_ne_zero,
      OfNat.ofNat_ne_one, OfNat.one_ne_ofNat, zero_ne_one, one_ne_zero, if_false,
      if_true] <;>
    omega

theorem isbn13_single_digit_sensitivity_witness :
    (IsThirteenDigits "9788418037016" ∧ ValidateISBN id "9788418037016" = none ∧
      '7' ≠ charAt "9788418037016" 12) ∧
    ValidateISBN id ⟨("9788418037016" : String).data.set 12 '7'⟩
      = some "invalid ISBN-13 checksum" :=
  ⟨⟨by decide, by decide, by decide⟩,
    isbn13_single_digit_sensitivity id "9788418037016" 12 '7' (by decide) (by decide)
      (by decide) (by decide) (by decide)⟩



/-! ### Canonical ISBN of a created book, and repository failures -/

theorem createBook_journal {σ : Type} (u : Char → Char) (repo : BookRepository σ)
    (tNew tVal : Time) (title author : String) (year : Nat) (genre isbn : String) (s : σ) :
    failuresStop Call.isGetByISBN
        (CreateBook u (journaled repo) tNew tVal title author year genre isbn (s, [])).state.2
      = true ∧
    (hasFailure Call.isGetByISBN
        (CreateBook u (journaled repo) tNew tVal title author year genre isbn (s, [])).state.2
        = true →
      returnsError Prod.snd
        (CreateBook u (journaled repo) tNew tVal title author year genre isbn (s, [])).out) := by
  by_cases ht : title = ""
  · simp [CreateBook, ht, failuresStop, hasFailure]
  · by_cases ha : author = ""
    · simp [CreateBook, ht, ha, failuresStop, hasFailure]
    · cases hv : (NewBook u tNew title author year genre isbn).ValidateBasic u tVal with
      | some e => simp [CreateBook, ht, ha, hv, failuresStop, hasFailure]
      | none =>
        cases hg2 : (repo.GetByISBN (NewBook u tNew title author year genre isbn).ISBN s).1.2 <;>
        cases hg1 : (repo.GetByISBN (NewBook u tNew title author year genre isbn).ISBN s).1.1 <;>
        cases hc : (repo.Create (NewBook u tNew title author year genre isbn)
          (repo.GetByISBN (NewBook u tNew title author year genre isbn).ISBN s).2).1.2 <;>
        simp [CreateBook, ht, ha, hv, journaled, hg2, hg1, hc, failuresStop, hasFailure,
          returnsError, Call.isGetByISBN]

theorem applyAndPersist_journal {σ : Type} (u : Char → Char) (repo : BookRepository σ)
    (tUpd tVal : Time) (current : Option Book) (input : UpdateBookInput) (calls : List Call)
    (s : σ) (j : List JournalEntry)
    (hj : ∀ e ∈ j, e.2 = none ∨ Call.isGetByISBN e.1 = true) :
    failuresStop Call.isGetByISBN
        (applyAndPersist u (journaled repo) tUpd tVal current input calls (s, j)).state.2
      = true ∧
    (hasFailure Call.isGetByISBN
        (applyAndPersist u (journaled repo) tUpd tVal current input calls (s, j)).state.2 = true →
      returnsError Prod.snd
        (applyAndPersist u (journaled repo) tUpd tVal current input calls (s, j)).out) := by
  have hstop : ∀ (l : List JournalEntry) (x : JournalEntry),
      (∀ e ∈ l, e.2 = none ∨ Call.isGetByISBN e.1 = true) →
      failuresStop Call.isGetByISBN (l ++ [x]) = true := by
    intro l x
    induction l with
    | nil => intro _; rfl
    | cons a t ih =>
      intro h
      have iht := ih (fun e he => h e (List.mem_cons_of_mem a he))
      have ha := h a (List.mem_cons_self a t)
      cases t with
      | nil =>
        rcases ha with ha | ha <;> simp [failuresStop, ha]
      | cons b t2 =>
        simp only [List.cons_append, failuresStop, Bool.and_eq_true, Bool.or_eq_true,
          Option.isNone_iff_eq_none]
        exact ⟨ha, iht⟩
  have hstop0 : ∀ (l : List JournalEntry),
      (∀ e ∈ l, e.2 = none ∨ Call.isGetByISBN e.1 = true) →
      failuresStop Call.isGetByISBN l = true ∧ hasFailure Call.isGetByISBN l = false := by
    intro l
    induction l with
    | nil => intro _; exact ⟨rfl, rfl⟩
    | cons a t ih =>
      intro h
      have iht := ih (fun e he => h e (List.mem_cons_of_mem a he))
      have ha := h a (List.mem_cons_self a t)
      constructor
      · cases t with
        | nil => rfl
        | cons b t2 =>
          simp only [failuresStop, Bool.and_eq_true, Bool.or_eq_true,
            Option.isNone_iff_eq_none]
          exact ⟨ha, iht.1⟩
      · have h2 := iht.2
        unfold hasFailure at h2 ⊢
        rw [List.any_cons, h2]
        rcases ha with ha | ha <;> simp [ha]
  cases current with
  | none =>
    have := hstop0 j hj
    simp [applyAndPersist, this.1, this.2]
  | some cur =>
    cases hv : (cur.Update u tUpd input).ValidateBasic u tVal with
    | some e =>
      have := hstop0 j hj
      simp [applyAndPersist, hv, this.1, this.2]
    | none =>
      cases hr : (repo.Update (cur.Update u tUpd input) s).1.2 with
      | some e =>
        simp [applyAndPersist, hv, journaled, hr, hstop j _ hj, returnsError]
      | none =>
        have h0 := hstop0 j hj
        have hnf : hasFailure Call.isGetByISBN
            (j ++ [(Call.Update (cur.Update u tUpd input), none)]) = false := by
          unfold hasFailure at h0 ⊢
          rw [List.any_append, h0.2]
          simp
        simp [applyAndPersist, hv, journaled, hr, hstop j _ hj, hnf]

theorem updateBook_journal {σ : Type} (u : Char → Char) (repo : BookRepository σ)
    (tIn tUpd tVal : Time) (id : Nat) (input : UpdateBookInput) (s : σ) :
    failuresStop Call.isGetByISBN
        (UpdateBook u (journaled repo) tIn tUpd tVal id input (s, [])).state.2 = true ∧
    (hasFailure Call.isGetByISBN
        (UpdateBook u (journaled repo) tIn tUpd tVal id input (s, [])).state.2 = true →
      returnsError Prod.snd
        (UpdateBook u (journaled repo) tIn tUpd tVal id input (s, [])).out) := by
  by_cases hid : id = 0
  · simp [UpdateBook, hid, failuresStop, hasFailure]
  · cases hg : (repo.GetByID id s).1.2 with
    | some e =>
      simp [UpdateBook, hid, journaled, hg, failuresStop, hasFailure, returnsError,
        Call.isGetByISBN]
    | none =>
      cases hin : ValidateUpdateInput u tIn input with
      | some e =>
        simp [UpdateBook, hid, journaled, hg, hin, failuresStop, hasFailure]
      | none =>
        cases hisbn : input.ISBN with
        | none =>
          have he : UpdateBook u (journaled repo) tIn tUpd tVal id input (s, [])
              = applyAndPersist u (journaled repo) tUpd tVal (repo.GetByID id s).1.1 input
                  [Call.GetByID id] ((repo.GetByID id s).2, [(Call.GetByID id, none)]) := by
            simp [UpdateBook, hid, journaled, hg, hin, hisbn]
          rw [he]
          exact applyAndPersist_journal u repo tUpd tVal _ input _ _ _ (by simp)
        | some isbn =>
          have hj : ∀ e ∈ [((Call.GetByID id, none) : JournalEntry),
              (Call.GetByISBN isbn, (repo.GetByISBN isbn (repo.GetByID id s).2).1.2)],
              e.2 = none ∨ Call.isGetByISBN e.1 = true := by
            simp [Call.isGetByISBN]
          have hgo : UpdateBook u (journaled repo) tIn tUpd tVal id input (s, [])
              = applyAndPersist u (journaled repo) tUpd tVal (repo.GetByID id s).1.1 input
                  [Call.GetByID id, Call.GetByISBN isbn]
                  ((repo.GetByISBN isbn (repo.GetByID id s).2).2,
                    [(Call.GetByID id, none),
                      (Call.GetByISBN isbn, (repo.GetByISBN isbn (repo.GetByID id s).2).1.2)]) ∨
              (failuresStop Call.isGetByISBN
                  (UpdateBook u (journaled repo) tIn tUpd tVal id input (s, [])).state.2 = true ∧
                hasFailure Call.isGetByISBN
                  (UpdateBook u (journaled repo) tIn tUpd tVal id input (s, [])).state.2
                  = false) := by
            cases ho2 : (repo.GetByISBN isbn (repo.GetByID id s).2).1.2 with
            | some e =>
              left
              simp [UpdateBook, hid, journaled, hg, hin, hisbn, ho2]
            | none =>
              cases ho1 : (repo.GetByISBN isbn (repo.GetByID id s).2).1.1 with
              | none =>
                left
                simp [UpdateBook, hid, journaled, hg, hin, hisbn, ho2, ho1]
              | some other =>
                cases hcur : (repo.GetByID id s).1.1 with
                | none =>
                  right
                  simp [UpdateBook, hid, journaled, hg, hin, hisbn, ho2, ho1, hcur,
                    failuresStop, hasFailure]
                | some cur =>
                  by_cases hne : other.ID = cur.ID
                  · left
                    simp [UpdateBook, hid, journaled, hg, hin, hisbn, ho2, ho1, hcur, hne]
                  · right
                    simp [UpdateBook, hid, journaled, hg, hin, hisbn, ho2, ho1, hcur, hne,
                      failuresStop, hasFailure]
          rcases hgo with he | ⟨h1, h2⟩
          · rw [he]
            exact applyAndPersist_journal u repo tUpd tVal _ input _ _ _ hj
          · refine ⟨h1, fun h => ?_⟩
            rw [h2] at h
            exact absurd h (by decide)

theorem readOnly_journal {σ : Type} (u : Char → Char) (repo : BookRepository σ) (id : Nat)
    (isbn : String) (filter : BookFilter) (s : σ) :
    (failuresStop (fun _ => false) (DeleteBook (journaled repo) id (s, [])).state.2 = true ∧
      (hasFailure (fun _ => false) (DeleteBook (journaled repo) id (s, [])).state.2 = true →
        returnsError (fun e => e) (DeleteBook (journaled repo) id (s, [])).out)) ∧
    (failuresStop (fun _ => false) (GetBookByID (journaled repo) id (s, [])).state.2 = true ∧
      (hasFailure (fun _ => false) (GetBookByID (journaled repo) id (s, [])).state.2 = true →
        returnsError Prod.snd (GetBookByID (journaled repo) id (s, [])).out)) ∧
    (failuresStop (fun _ => false)
        (GetBookByISBN u (journaled repo) isbn (s, [])).state.2 = true ∧
      (hasFailure (fun _ => false)
          (GetBookByISBN u (journaled repo) isbn (s, [])).state.2 = true →
        returnsError Prod.snd (GetBookByISBN u (journaled repo) isbn (s, [])).out)) ∧
    (failuresStop (fun _ => false) (SearchBooks (journaled repo) filter (s, [])).state.2 = true ∧
      (hasFailure (fun _ => false) (SearchBooks (journaled repo) filter (s, [])).state.2 = true →
        returnsError Prod.snd (SearchBooks (journaled repo) filter (s, [])).out)) := by
  refine ⟨?_, ?_, ?_, ?_⟩
  · by_cases hid : id = 0
    · simp [DeleteBook, hid, failuresStop, hasFailure]
    · cases hg : (repo.GetByID id s).1.2 with
      | some e => simp [DeleteBook, hid, journaled, hg, failuresStop, hasFailure, returnsError]
      | none =>
        cases hd : (repo.Delete id (repo.GetByID id s).2).1 <;>
        simp [DeleteBook, hid, journaled, hg, hd, failuresStop, hasFailure, returnsError]
  · by_cases hid : id = 0
    · simp [GetBookByID, hid, failuresStop, hasFailure]
    · cases hg : (repo.GetByID id s).1.2 <;>
      simp [GetBookByID, hid, journaled, hg, failuresStop, hasFailure, returnsError]
  · by_cases hi : isbn = ""
    · simp [GetBookByISBN, hi, failuresStop, hasFailure]
    · cases hg : (repo.GetByISBN (NormalizeISBN u isbn) s).1.2 <;>
      simp [GetBookByISBN, hi, journaled, hg, failuresStop, hasFailure, returnsError]
  · cases hf : filter.HasAny with
    | false =>
      cases hg : (repo.GetAll s).1.2 <;>
      simp [SearchBooks, hf, journaled, hg, failuresStop, hasFailure, returnsError]
    | true =>
      cases hg : (repo.FindByFilter filter s).1.2 <;>
      simp [SearchBooks, hf, journaled, hg, failuresStop, hasFailure, returnsError]

theorem applyAndPersist_journaled_same {σ : Type} (u : Char → Char) (repo : BookRepository σ)
    (tUpd tVal : Time) (current : Option Book) (input : UpdateBookInput) (calls : List Call)
    (s : σ) (j : List JournalEntry) (hj : j.map Prod.fst = calls) :
    (applyAndPersist u (journaled repo) tUpd tVal current input calls (s, j)).out
      = (applyAndPersist u repo tUpd tVal current input calls s).out ∧
    (applyAndPersist u (journaled repo) tUpd tVal current input calls (s, j)).state.2.map Prod.fst
      = (applyAndPersist u repo tUpd tVal current input calls s).calls := by
  cases current with
  | none => simp [applyAndPersist, hj]
  | some cur =>
    cases hv : (cur.Update u tUpd input).ValidateBasic u tVal with
    | some e => simp [applyAndPersist, hv, hj]
    | none =>
      cases hr : (repo.Update (cur.Update u tUpd input) s).1.2 <;>
      simp [applyAndPersist, hv, journaled, hr, hj]

theorem updateBook_journaled_same {σ : Type} (u : Char → Char) (repo : BookRepository σ)
    (tIn tUpd tVal : Time) (id : Nat) (input : UpdateBookInput) (s : σ) :
    (UpdateBook u (journaled repo) tIn tUpd tVal id input (s, [])).out
      = (UpdateBook u repo tIn tUpd tVal id input s).out ∧
    (UpdateBook u (journaled repo) tIn tUpd tVal id input (s, [])).state.2.map Prod.fst
      = (UpdateBook u repo tIn tUpd tVal id input s).calls := by
  by_cases hid : id = 0
  · simp [UpdateBook, hid]
  · cases hg : (repo.GetByID id s).1.2 with
    | some e => simp [UpdateBook, hid, journaled, hg]
    | none =>
      cases hin : ValidateUpdateInput u tIn input with
      | some e => simp [UpdateBook, hid, journaled, hg, hin]
      | none =>
        cases hisbn : input.ISBN with
        | none =>
          have h := applyAndPersist_journaled_same u repo tUpd tVal (repo.GetByID id s).1.1
            input [Call.GetByID id] (repo.GetByID id s).2 [(Call.GetByID id, none)] rfl
          simpa [UpdateBook, hid, journaled, hg, hin, hisbn] using h
        | some isbn =>
          have h := applyAndPersist_journaled_same u repo tUpd tVal (repo.GetByID id s).1.1
            input [Call.GetByID id, Call.GetByISBN isbn]
            (repo.GetByISBN isbn (repo.GetByID id s).2).2
            [(Call.GetByID id, none),
              (Call.GetByISBN isbn, (repo.GetByISBN isbn (repo.GetByID id s).2).1.2)] rfl
          cases ho2 : (repo.GetByISBN isbn (repo.GetByID id s).2).1.2 with
          | some e =>
            rw [ho2] at h
            simpa [UpdateBook, hid, journaled, hg, hin, hisbn, ho2] using h
          | none =>
            rw [ho2] at h
            cases ho1 : (repo.GetByISBN isbn (repo.GetByID id s).2).1.1 with
            | none => simpa [UpdateBook, hid, journaled, hg, hin, hisbn, ho2, ho1] using h
            | some other =>
              cases hcur : (repo.GetByID id s).1.1 with
              | none => simp [UpdateBook, hid, journaled, hg, hin, hisbn, ho2, ho1, hcur]
              | some cur =>
                rw [hcur] at h
                by_cases hne : other.ID = cur.ID
                · simpa [UpdateBook, hid, journaled, hg, hin, hisbn, ho2, ho1, hcur, hne] using h
                · simp [UpdateBook, hid, journaled, hg, hin, hisbn, ho2, ho1, hcur, hne]

theorem createBook_journaled_same {σ : Type} (u : Char → Char) (repo : BookRepository σ)
    (tNew tVal : Time) (title author : String) (year : Nat) (genre isbn : String) (s : σ) :
    (CreateBook u (journaled repo) tNew tVal title author year genre isbn (s, [])).out
      = (CreateBook u repo tNew tVal title author year genre isbn s).out ∧
    (CreateBook u (journaled repo) tNew tVal title author year genre isbn (s, [])).state.2.map
      Prod.fst = (CreateBook u repo tNew tVal title author year genre isbn s).calls := by
  by_cases ht : title = ""
  · simp [CreateBook, ht]
  · by_cases ha : author = ""
    · simp [CreateBook, ht, ha]
    · cases hv : (NewBook u tNew title author year genre isbn).ValidateBasic u tVal with
      | some e => simp [CreateBook, ht, ha, hv]
      | none =>
        cases hg2 : (repo.GetByISBN (NewBook u tNew title author year genre isbn).ISBN s).1.2 <;>
        cases hg1 : (repo.GetByISBN (NewBook u tNew title author year genre isbn).ISBN s).1.1 <;>
        cases hc : (repo.Create (NewBook u tNew title author year genre isbn)
          (repo.GetByISBN (NewBook u tNew title author year genre isbn).ISBN s).2).1.2 <;>
        simp [CreateBook, ht, ha, hv, journaled, hg2, hg1, hc]

theorem readOnly_journaled_same {σ : Type} (u : Char → Char) (repo : BookRepository σ)
    (id : Nat) (isbn : String) (filter : BookFilter) (s : σ) :
    ((DeleteBook (journaled repo) id (s, [])).out = (DeleteBook repo id s).out ∧
      (DeleteBook (journaled repo) id (s, [])).state.2.map Prod.fst
        = (DeleteBook repo id s).calls) ∧
    ((GetBookByID (journaled repo) id (s, [])).out = (GetBookByID repo id s).out ∧
      (GetBookByID (journaled repo) id (s, [])).state.2.map Prod.fst
        = (GetBookByID repo id s).calls) ∧
    ((GetBookByISBN u (journaled repo) isbn (s, [])).out = (GetBookByISBN u repo isbn s).out ∧
      (GetBookByISBN u (journaled repo) isbn (s, [])).state.2.map Prod.fst
        = (GetBookByISBN u repo isbn s).calls) ∧
    ((SearchBooks (journaled repo) filter (s, [])).out = (SearchBooks repo filter s).out ∧
      (SearchBooks (journaled repo) filter (s, [])).state.2.map Prod.fst
        = (SearchBooks repo filter s).calls) := by
  refine ⟨?_, ?_, ?_, ?_⟩
  · by_cases hid : id = 0
    · simp [DeleteBook, hid]
    · cases hg : (repo.GetByID id s).1.2 <;> simp [DeleteBook, hid, journaled, hg]
  · by_cases hid : id = 0
    · simp [GetBookByID, hid]
    · simp [GetBookByID, hid, journaled]
  · by_cases hi : isbn = ""
    · simp [GetBookByISBN, hi]
    · simp [GetBookByISBN, hi, journaled]
  · cases hf : filter.HasAny <;> simp [SearchBooks, hf, journaled]

theorem newBook_validateBasic_none (u : Char → Char) (tNew tVal : Time)
    (title author : String) (year : Nat) (genre isbn : String)
    (ht : TrimSpace title ≠ "") (ha : TrimSpace author ≠ "")
    (hy : ValidateYear tVal year = none)
    (hi : ValidateISBN u (NormalizeISBN u isbn) = none) :
    (NewBook u tNew title author year genre isbn).ValidateBasic u tVal = none := by
  unfold Book.ValidateBasic NewBook
  simp only [trimSpace_idem, if_neg ht, if_neg ha, hy, hi]

/-- C19, the code at the failing input: for the raw ISBN "-\t9788418037016"
`NewBook` stores "\t9788418037016", `ValidateBasic` accepts the record because
`ValidateISBN` normalizes once more, and `CreateBook` hands that record to
`Create` and returns it; the stored ISBN has 14 characters, a tab first, and
neither of the two shapes. -/
theorem createBook_stores_uncanonical_isbn :
    (∀ u : Char → Char,
      (NewBook u t2025 "Libro" "Autor" 2022 "Fiction" "-\t9788418037016").ISBN
        = "\t9788418037016") ∧
    (∀ u : Char → Char,
      (CreateBook u (fixedRepo (none, none) (none, some "not found") (none, none))
          t2025 t2025 "Libro" "Autor" 2022 "Fiction" "-\t9788418037016" ()).calls
        = [Call.GetByISBN "\t9788418037016",
            Call.Create (NewBook u t2025 "Libro" "Autor" 2022 "Fiction" "-\t9788418037016")]) ∧
    (∀ u : Char → Char,
      (CreateBook u (fixedRepo (none, none) (none, some "not found") (none, none))
          t2025 t2025 "Libro" "Autor" 2022 "Fiction" "-\t9788418037016" ()).out
        = .returned (some { NewBook u t2025 "Libro" "Autor" 2022 "Fiction"
            "-\t9788418037016" with ID := 1 }, none)) ∧
    ¬ IsNineDigitsThenDigitOrX "\t9788418037016" ∧
    ¬ IsThirteenDigits "\t9788418037016" := by
  have hn : ∀ u : Char → Char,
      (NewBook u t2025 "Libro" "Autor" 2022 "Fiction" "-\t9788418037016").ISBN
        = "\t9788418037016" := fun u => rfl
  have hv : ∀ u : Char → Char,
      (NewBook u t2025 "Libro" "Autor" 2022 "Fiction" "-\t9788418037016").ValidateBasic u t2025
        = none := by
    intro u
    apply newBook_validateBasic_none u t2025 t2025 _ _ _ _ _ (by decide) (by decide) (by decide)
    have h1 : NormalizeISBN u "-\t9788418037016" = "\t9788418037016" := rfl
    have h2 : NormalizeISBN u "\t9788418037016" = "9788418037016" := rfl
    unfold ValidateISBN
    rw [h1, h2]
    decide
  refine ⟨hn, fun u => ?_, fun u => ?_, by decide, by decide⟩
  · simp [CreateBook, hv u, hn u, fixedRepo]
  · simp [CreateBook, hv u, hn u, fixedRepo]

theorem validateISBN_sample (u : Char → Char) :
    ValidateISBN u (NormalizeISBN u "9788418037016") = none := by
  have h2 : NormalizeISBN u "9788418037016" = "9788418037016" := rfl
  unfold ValidateISBN
  rw [h2, h2]
  decide

theorem newBook_sample_valid (u : Char → Char) :
    (NewBook u t2025 "Libro" "Autor" 2022 "Fiction" "9788418037016").ValidateBasic u t2025
      = none :=
  newBook_validateBasic_none u t2025 t2025 _ _ _ _ _ (by decide) (by decide) (by decide)
    (validateISBN_sample u)

/-- C20, the claim as stated fails: when the `GetByISBN` call of `CreateBook`
fails with "connection refused", which is no lookup miss, `CreateBook` goes on
to call `Create` and returns the created book without any error. -/
theorem createBook_swallows_lookup_failure :
    (∀ u : Char → Char,
      (CreateBook u (journaled (fixedRepo (none, none) (none, some "connection refused")
          (none, none))) t2025 t2025 "Libro" "Autor" 2022 "Fiction" "9788418037016"
          ((), [])).state.2
        = [(Call.GetByISBN "9788418037016", some "connection refused"),
            (Call.Create (NewBook u t2025 "Libro" "Autor" 2022 "Fiction" "9788418037016"),
              none)]) ∧
    (∀ u : Char → Char,
      (CreateBook u (fixedRepo (none, none) (none, some "connection refused") (none, none))
          t2025 t2025 "Libro" "Autor" 2022 "Fiction" "9788418037016" ()).out
        = .returned (some { NewBook u t2025 "Libro" "Autor" 2022 "Fiction"
            "9788418037016" with ID := 1 }, none)) ∧
    ¬ ∃ u : Char → Char,
      returnsError Prod.snd
        (CreateBook u (fixedRepo (none, none) (none, some "connection refused") (none, none))
          t2025 t2025 "Libro" "Autor" 2022 "Fiction" "9788418037016" ()).out := by
  have hn : ∀ u : Char → Char,
      (NewBook u t2025 "Libro" "Autor" 2022 "Fiction" "9788418037016").ISBN
        = "9788418037016" := fun u => rfl
  have hv := newBook_sample_valid
  have hout : ∀ u : Char → Char,
      (CreateBook u (fixedRepo (none, none) (none, some "connection refused") (none, none))
          t2025 t2025 "Libro" "Autor" 2022 "Fiction" "9788418037016" ()).out
        = .returned (some { NewBook u t2025 "Libro" "Autor" 2022 "Fiction"
            "9788418037016" with ID := 1 }, none) := by
    intro u
    simp [CreateBook, hv u, hn u, fixedRepo]
  refine ⟨fun u => ?_, hout, ?_⟩
  · simp [CreateBook, hv u, hn u, fixedRepo, journaled]
  · rw [not_exists]
    intro u
    rw [hout u]
    exact fun h => h rfl

/-- C20, amended. For every use-case and every repository behaviour, a failed
repository call is the last call of the use-case and the use-case returns an
error to its caller, with one exception: the failures of the `GetByISBN`
uniqueness check made by `CreateBook` and `UpdateBook`. The code reads any
error of that check, a lookup miss or not, as "no such record": when the
fields of a `CreateBook` call are valid and that check fails, `Create` is
called next, and when the patch and the merged record of an `UpdateBook` call
are valid and that check fails, `Update` is called next. -/
theorem repository_failures_surface {σ : Type} (u : Char → Char) (repo : BookRepository σ)
    (tNew tIn tUpd tVal : Time) (title author : String) (year : Nat) (genre isbn : String)
    (id : Nat) (input : UpdateBookInput) (filter : BookFilter) (s : σ) :
    SurfacesFailures Call.isGetByISBN Prod.snd
      (CreateBook u repo tNew tVal title author year genre isbn s)
      (CreateBook u (journaled repo) tNew tVal title author year genre isbn (s, [])) ∧
    SurfacesFailures Call.isGetByISBN Prod.snd
      (UpdateBook u repo tIn tUpd tVal id input s)
      (UpdateBook u (journaled repo) tIn tUpd tVal id input (s, [])) ∧
    SurfacesFailures (fun _ => false) (fun e => e)
      (DeleteBook repo id s) (DeleteBook (journaled repo) id (s, [])) ∧
    SurfacesFailures (fun _ => false) Prod.snd
      (GetBookByID repo id s) (GetBookByID (journaled repo) id (s, [])) ∧
    SurfacesFailures (fun _ => false) Prod.snd
      (GetBookByISBN u repo isbn s) (GetBookByISBN u (journaled repo) isbn (s, [])) ∧
    SurfacesFailures (fun _ => false) Prod.snd
      (SearchBooks repo filter s) (SearchBooks (journaled repo) filter (s, [])) ∧
    (title ≠ "" → author ≠ "" →
      (NewBook u tNew title author year genre isbn).ValidateBasic u tVal = none →
      (repo.GetByISBN (NormalizeISBN u isbn) s).1.2 ≠ none →
      (CreateBook u repo tNew tVal title author year genre isbn s).calls
        = [Call.GetByISBN (NormalizeISBN u isbn),
            Call.Create (NewBook u tNew title author year genre isbn)]) ∧
    (∀ (cur : Book) (patchISBN : String), id ≠ 0 →
      (repo.GetByID id s).1 = (some cur, none) →
      ValidateUpdateInput u tIn input = none →
      input.ISBN = some patchISBN →
      (repo.GetByISBN patchISBN (repo.GetByID id s).2).1.2 ≠ none →
      (cur.Update u tUpd input).ValidateBasic u tVal = none →
      (UpdateBook u repo tIn tUpd tVal id input s).calls
        = [Call.GetByID id, Call.GetByISBN patchISBN,
            Call.Update (cur.Update u tUpd input)]) := by
  have hc := createBook_journal u repo tNew tVal title author year genre isbn s
  have hc2 := createBook_journaled_same u repo tNew tVal title author year genre isbn s
  have hu := updateBook_journal u repo tIn tUpd tVal id input s
  have hu2 := updateBook_journaled_same u repo tIn tUpd tVal id input s
  have hr := readOnly_journal u repo id isbn filter s
  have hr2 := readOnly_journaled_same u repo id isbn filter s
  refine ⟨⟨hc2.1, hc2.2, hc.1, fun h => ?_⟩, ⟨hu2.1, hu2.2, hu.1, fun h => ?_⟩,
    ⟨hr2.1.1, hr2.1.2, hr.1.1, fun h => ?_⟩,
    ⟨hr2.2.1.1, hr2.2.1.2, hr.2.1.1, fun h => ?_⟩,
    ⟨hr2.2.2.1.1, hr2.2.2.1.2, hr.2.2.1.1, fun h => ?_⟩,
    ⟨hr2.2.2.2.1, hr2.2.2.2.2, hr.2.2.2.1, fun h => ?_⟩, fun ht ha hv hg => ?_,
    fun cur patchISBN hid hgid hin hisbn hfail hmv => ?_⟩
  · rw [← hc2.1]; exact hc.2 h
  · rw [← hu2.1]; exact hu.2 h
  · rw [← hr2.1.1]; exact hr.1.2 h
  · rw [← hr2.2.1.1]; exact hr.2.1.2 h
  · rw [← hr2.2.2.1.1]; exact hr.2.2.1.2 h
  · rw [← hr2.2.2.2.1]; exact hr.2.2.2.2 h
  · have hi : (NewBook u tNew title author year genre isbn).ISBN = NormalizeISBN u isbn := rfl
    cases hc : (repo.Create (NewBook u tNew title author year genre isbn)
        (repo.GetByISBN (NormalizeISBN u isbn) s).2).1.2 <;>
      simp [CreateBook, ht, ha, hv, hi, hg, hc]
  · have hg2 : (repo.GetByID id s).1.2 = none := by rw [hgid]
    have hg1 : (repo.GetByID id s).1.1 = some cur := by rw [hgid]
    obtain ⟨e, he⟩ := Option.ne_none_iff_exists'.1 hfail
    have hrun : UpdateBook u repo tIn tUpd tVal id input s
        = applyAndPersist u repo tUpd tVal (some cur) input
            [Call.GetByID id, Call.GetByISBN patchISBN]
            (repo.GetByISBN patchISBN (repo.GetByID id s).2).2 := by
      simp [UpdateBook, hid, hg2, hg1, hin, hisbn, he]
    rw [hrun, (applyAndPersist_valid u repo tUpd tVal cur input _ _ hmv).1]
    rfl

theorem repository_failures_surface_witness :
    hasFailure Call.isGetByISBN
      (UpdateBook id (journaled (fixedRepo (some (sampleBook 1 "9788418037016"), none)
        (none, none) (none, some "database is locked")))
        t2025 t2025 t2025 1 (isbnPatch "9788418037016") ((), [])).state.2 = true ∧
    returnsError Prod.snd
      (UpdateBook id (fixedRepo (some (sampleBook 1 "9788418037016"), none)
        (none, none) (none, some "database is locked"))
        t2025 t2025 t2025 1 (isbnPatch "9788418037016") ()).out :=
  ⟨by decide,
    (repository_failures_surface id (fixedRepo (some (sampleBook 1 "9788418037016"), none)
      (none, none) (none, some "database is locked")) t2025 t2025 t2025 t2025
      "Libro" "Autor" 2022 "Fiction" "9788418037016" 1 (isbnPatch "9788418037016")
      { Title := none, Author := none, Year := none, Genre := none } ()).2.1.2.2.2
      (by decide)⟩

/-! ### Merging a valid patch into a valid record -/

theorem update_fields (u : Char → Char) (now : Time) (b : Book) (input : UpdateBookInput) :
    (b.Update u now input).Title = (match input.Title with
      | some t => TrimSpace t
      | none => b.Title) ∧
    (b.Update u now input).Author = (match input.Author with
      | some a => TrimSpace a
      | none => b.Author) ∧
    (b.Update u now input).Year = (match input.Year with
      | some y => y
      | none => b.Year) ∧
    (b.Update u now input).ISBN = (match input.ISBN with
      | some i => NormalizeISBN u i
      | none => b.ISBN) := by
  obtain ⟨title, author, year, genre, isbn⟩ := input
  cases title <;> cases author <;> cases year <;> cases genre <;> cases isbn <;>
    exact ⟨rfl, rfl, rfl, rfl⟩

/-- An ISBN that `ValidateISBN` accepts is still accepted after it has been
normalized: its normal form is made of digits and `X`, which normalization
leaves alone. -/
theorem validateISBN_normalized (u : Char → Char) (isbn : String)
    (h : ValidateISBN u isbn = none) : ValidateISBN u (NormalizeISBN u isbn) = none := by
  have hfix : NormalizeISBN u (NormalizeISBN u isbn) = NormalizeISBN u isbn := by
    apply normalizeISBN_fixed
    cases h10 : re10 (NormalizeISBN u isbn) with
    | true => exact mem_digitOrX_of_ten _ ((re10_iff _).1 h10)
    | false =>
      cases h13 : re13 (NormalizeISBN u isbn) with
      | true => exact mem_digit_of_thirteen _ ((re13_iff _).1 h13)
      | false =>
        unfold ValidateISBN checkNormalized at h
        rw [h10, h13] at h
        exact absurd h (by simp)
  unfold ValidateISBN at h ⊢
  rw [hfix]
  exact h

theorem validateUpdateInput_none (u : Char → Char) (now : Time) (input : UpdateBookInput)
    (h : ValidateUpdateInput u now input = none) :
    (∀ t, input.Title = some t → TrimSpace t ≠ "") ∧
    (∀ a, input.Author = some a → TrimSpace a ≠ "") ∧
    (∀ y, input.Year = some y → ValidateYear now y = none) ∧
    (∀ i, input.ISBN = some i → ValidateISBN u i = none) := by
  unfold ValidateUpdateInput at h
  refine ⟨fun t ht e => ?_, fun a ha e => ?_, fun y hy => ?_, fun i hi => ?_⟩
  · simp [ht, e] at h
  · rw [ha] at h
    split at h
    · exact absurd h (by simp)
    · simp [e] at h
  · rw [hy] at h
    split at h
    · exact absurd h (by simp)
    · split at h
      · exact absurd h (by simp)
      · cases hv : ValidateYear now y with
        | none => rfl
        | some err => simp [hv] at h
  · rw [hi] at h
    split at h
    · exact absurd h (by simp)
    · split at h
      · exact absurd h (by simp)
      · split at h
        · exact absurd h (by simp)
        · cases hv : ValidateISBN u i with
          | none => rfl
          | some err => simp [hv] at h

theorem validateUpdateInput_year (u : Char → Char) (t1 t2 : Time) (input : UpdateBookInput)
    (hy : t1.year = t2.year) :
    ValidateUpdateInput u t1 input = ValidateUpdateInput u t2 input := by
  have hv : ValidateYear t1 = ValidateYear t2 := by
    funext y
    unfold ValidateYear
    rw [hy]
  unfold ValidateUpdateInput
  rw [hv]

/-- The merge of a valid patch into a valid record is a valid record. -/
theorem update_valid (u : Char → Char) (now tUpd : Time) (b : Book) (p : UpdateBookInput)
    (hb : b.ValidateBasic u now = none) (hp : ValidateUpdateInput u now p = none) :
    (b.Update u tUpd p).ValidateBasic u now = none := by
  obtain ⟨bt, ba, ⟨by1, by2⟩, bi⟩ := (validateBasic_none_iff u now b).1 hb
  obtain ⟨pt, pa, py, pi⟩ := validateUpdateInput_none u now p hp
  obtain ⟨ft, fa, fy, fi⟩ := update_fields u tUpd b p
  rw [validateBasic_none_iff]
  unfold Book.IsValid
  rw [ft, fa, fy, fi, ← validateYear_none_iff]
  refine ⟨?_, ?_, ?_, ?_⟩
  · cases ht : p.Title with
    | none => exact bt
    | some t =>
      show TrimSpace (TrimSpace t) ≠ ""
      rw [trimSpace_idem]
      exact pt t ht
  · cases ha : p.Author with
    | none => exact ba
    | some a =>
      show TrimSpace (TrimSpace a) ≠ ""
      rw [trimSpace_idem]
      exact pa a ha
  · cases hy : p.Year with
    | none => exact (validateYear_none_iff now b.Year).2 ⟨by1, by2⟩
    | some y => exact py y hy
  · cases hi : p.ISBN with
    | none => exact bi
    | some i => exact validateISBN_normalized u i (pi i hi)

/-- C21. Merging a valid patch into a valid record yields a valid record: for
every book `b` that satisfies `ValidateBasic` and every patch `p` that
satisfies `ValidateUpdateInput`, both under the same current year, the book
obtained by `Update` satisfies `ValidateBasic`. So the re-validation step of
`UpdateBook` cannot fail for a valid stored record: the call either stops on
the ISBN conflict or goes on to `Update` with the merged record. -/
theorem update_preserves_validity {σ : Type} (u : Char → Char) (repo : BookRepository σ)
    (tIn tUpd tVal : Time) (b : Book) (p : UpdateBookInput) (id : Nat) (s : σ)
    (hb : b.ValidateBasic u tVal = none) (hp : ValidateUpdateInput u tVal p = none) :
    (b.Update u tUpd p).ValidateBasic u tVal = none ∧
    (id ≠ 0 → (repo.GetByID id s).1 = (some b, none) → tIn.year = tVal.year →
      (UpdateBook u repo tIn tUpd tVal id p s).out
          = .returned (none, some "isbn already registered by another book") ∨
        Call.Update (b.Update u tUpd p) ∈ (UpdateBook u repo tIn tUpd tVal id p s).calls) := by
  have hv := update_valid u tVal tUpd b p hb hp
  refine ⟨hv, fun hid hg hy => ?_⟩
  have hin : ValidateUpdateInput u tIn p = none := by
    rw [validateUpdateInput_year u tIn tVal p hy]
    exact hp
  have hg2 : (repo.GetByID id s).1.2 = none := by rw [hg]
  have hg1 : (repo.GetByID id s).1.1 = some b := by rw [hg]
  have hgo : ∀ (calls : List Call) (st : σ),
      UpdateBook u repo tIn tUpd tVal id p s
        = applyAndPersist u repo tUpd tVal (some b) p calls st →
      Call.Update (b.Update u tUpd p) ∈ (UpdateBook u repo tIn tUpd tVal id p s).calls := by
    intro calls st he
    rw [he, (applyAndPersist_valid u repo tUpd tVal b p calls st hv).1]
    simp
  cases hisbn : p.ISBN with
  | none =>
    right
    apply hgo [Call.GetByID id] (repo.GetByID id s).2
    simp [UpdateBook, hid, hg2, hg1, hin, hisbn]
  | some isbn =>
    cases ho2 : (repo.GetByISBN isbn (repo.GetByID id s).2).1.2 with
    | some e =>
      right
      apply hgo [Call.GetByID id, Call.GetByISBN isbn] (repo.GetByISBN isbn (repo.GetByID id s).2).2
      simp [UpdateBook, hid, hg2, hg1, hin, hisbn, ho2]
    | none =>
      cases ho1 : (repo.GetByISBN isbn (repo.GetByID id s).2).1.1 with
      | none =>
        right
        apply hgo [Call.GetByID id, Call.GetByISBN isbn]
          (repo.GetByISBN isbn (repo.GetByID id s).2).2
        simp [UpdateBook, hid, hg2, hg1, hin, hisbn, ho2, ho1]
      | some other =>
        by_cases hne : other.ID = b.ID
        · right
          apply hgo [Call.GetByID id, Call.GetByISBN isbn]
            (repo.GetByISBN isbn (repo.GetByID id s).2).2
          simp [UpdateBook, hid, hg2, hg1, hin, hisbn, ho2, ho1, hne]
        · left
          simp [UpdateBook, hid, hg2, hg1, hin, hisbn, ho2, ho1, hne]

theorem update_preserves_validity_witness :
    ((sampleBook 1 "9788418037016").ValidateBasic id t2025 = none ∧
      ValidateUpdateInput id t2025 fullPatch = none) ∧
    ((sampleBook 1 "9788418037016").Update id t2025 fullPatch).ValidateBasic id t2025 = none ∧
    ((sampleBook 1 "9788418037016").Update id t2025 fullPatch).ISBN = "080442957X" ∧
    Call.Update ((sampleBook 1 "9788418037016").Update id t2025 fullPatch)
      ∈ (UpdateBook id (fixedRepo (some (sampleBook 1 "9788418037016"), none)
          (none, some "not found") (none, none)) t2025 t2025 t2025 1 fullPatch ()).calls :=
  have h := update_preserves_validity id
    (fixedRepo (some (sampleBook 1 "9788418037016"), none) (none, some "not found")
      (none, none)) t2025 t2025 t2025 (sampleBook 1 "9788418037016") fullPatch 1 ()
    (by decide) (by decide)
  ⟨⟨by decide, by decide⟩, h.1, by decide,
    (h.2 (by decide) rfl rfl).resolve_left (by decide)⟩

end Library
